import Mathlib

/-! DLT exporter: a shallow embedding of `src/dltexporter.cpp`.

The export pipeline of the DLT viewer is embedded as pure Lean functions with
explicit state passing.

* Qt value types are lists: a `QByteArray` is a list of bytes, a `QString` a
  list of characters, a `QList<int>` a list of integers.
* The collaborators that live outside the file (the log store `QDltFile`, the
  record `QDltMsg`, the decoder, the sink `QFile`) are records of the
  observations the exporter makes of them.
* A C++ expression with undefined behaviour (indexing a `QList` outside its
  bounds, dereferencing a null `QFile*`, leaving a non-void function without
  `return`) evaluates to `none`.
* `int` values are mathematical integers: the only arithmetic the driver does
  on them is counting from 0 up to the record count, itself an `int`.
-/

namespace DltExporter

/-! ## Qt value types and collaborators -/

/-- A `QByteArray`: the bytes of one raw record, each below 256. -/
abbrev QByteArray := List Nat

/-- A `QString`: a sequence of characters. -/
abbrev QString := List Char

/-- A `QModelIndex` as the view hands it over: row, column, internal id and
the address of the model it belongs to. -/
structure QModelIndex where
  row : Int
  column : Int
  internalId : Nat
  model : Nat
deriving DecidableEq, Repr

/-- `QModelIndex::operator<`: lexicographic on row, column, internal id,
model address. -/
def QModelIndex.lt (a b : QModelIndex) : Prop :=
  a.row < b.row ∨ (a.row = b.row ∧ (a.column < b.column ∨ (a.column = b.column ∧
    (a.internalId < b.internalId ∨ (a.internalId = b.internalId ∧ a.model < b.model)))))

instance QModelIndex.decLt : DecidableRel QModelIndex.lt := fun a b =>
  inferInstanceAs (Decidable (a.row < b.row ∨ (a.row = b.row ∧ (a.column < b.column ∨
    (a.column = b.column ∧ (a.internalId < b.internalId ∨
      (a.internalId = b.internalId ∧ a.model < b.model)))))))

/-- The order `std::sort` arranges by: `a` may stand before `b` when
`b < a` is false. -/
def QModelIndex.le (a b : QModelIndex) : Prop := ¬ QModelIndex.lt b a

instance QModelIndex.decLe : DecidableRel QModelIndex.le := fun a b =>
  inferInstanceAs (Decidable (¬ QModelIndex.lt b a))

/-- `std::sort(begin, end)` on a `QModelIndexList`. `operator<` is a strict
total order on the four fields, so the ascending arrangement is unique
(`stdSort_unique`) and insertion sort computes it. -/
def stdSort (l : List QModelIndex) : List QModelIndex :=
  List.insertionSort QModelIndex.le l

/-- The log store `QDltFile`, by the five queries the exporter makes. -/
structure QDltFile where
  size : Int
  sizeFilter : Int
  getMsg : Int → QByteArray
  getMsgFilter : Int → QByteArray
  getMsgFilterPos : Int → Int

/-- The sink `QFile`: whether `open` will succeed, whether it is open, and
the bytes it holds. -/
structure QFile where
  openable : Bool
  isOpen : Bool
  content : QByteArray
deriving DecidableEq, Repr

/-- `QFile::open(WriteOnly)`: it fails on a file that is open already or
cannot be opened; on success the file is truncated and open. -/
def QFile.open_ (f : QFile) : Bool × QFile :=
  if f.openable ∧ ¬ f.isOpen then (true, { f with isOpen := true, content := [] })
  else (false, f)

/-- `QIODevice::write`: appends to an open device and returns the number of
bytes written; on a device that is not open it writes nothing and returns -1.
An open device takes every write: a device error after a successful `open` is
outside the model. -/
def QFile.write (f : QFile) (bytes : QByteArray) : Int × QFile :=
  if f.isOpen then ((bytes.length : Int), { f with content := f.content ++ bytes })
  else (-1, f)

/-- `QFile::close`. -/
def QFile.close (f : QFile) : QFile := { f with isOpen := false }

/-- `DltExporter::DltExportSelection` is a C enum: an integer that names three
values and can hold others. -/
abbrev DltExportSelection := Int

def SelectionAll : DltExportSelection := 0
def SelectionFiltered : DltExportSelection := 1
def SelectionSelected : DltExportSelection := 2

/-- `ExportContext`. `to` (here `to_`) and `selection` are pointers that may be null;
`reporter` holds the messages the `ErrorReporter` has shown so far. -/
structure ExportContext where
  to_ : Option QFile
  from_ : QDltFile
  selection : Option (List QModelIndex)
  selectedRows : List Int
  exportSelection : DltExportSelection
  reporter : List QString
  silent_mode : Bool

/-- `QList<int>::at(i)` and `operator[](i)`: defined inside the bounds only. -/
def qlistAt (l : List Int) (i : Int) : Option Int :=
  if 0 ≤ i then l[i.toNat]? else none

/-! ## SelectionHelper -/

/-- `SelectionHelper::size`. -/
def SelectionHelper.size (ctx : ExportContext) : Int :=
  if ctx.exportSelection = SelectionAll then ctx.from_.size
  else if ctx.exportSelection = SelectionFiltered then ctx.from_.sizeFilter
  else if ctx.exportSelection = SelectionSelected then (ctx.selectedRows.length : Int)
  else -1

/-- `SelectionHelper::selection`. -/
def SelectionHelper.selection (context : ExportContext) (num : Int) : Option Int :=
  if context.exportSelection = SelectionAll then some num
  else if context.exportSelection = SelectionFiltered then
    some (context.from_.getMsgFilterPos num)
  else if context.exportSelection = SelectionSelected then
    (qlistAt context.selectedRows num).map context.from_.getMsgFilterPos
  else some (-1)

/-- `SelectionHelper::getMsg`. -/
def SelectionHelper.getMsg (ctx : ExportContext) (num : Int) : Option QByteArray :=
  if ctx.exportSelection = SelectionAll then some (ctx.from_.getMsg num)
  else if ctx.exportSelection = SelectionFiltered then some (ctx.from_.getMsgFilter num)
  else if ctx.exportSelection = SelectionSelected then
    (qlistAt ctx.selectedRows num).map ctx.from_.getMsgFilter
  else some []

/-- `SelectionHelper::prepare`: for scope Selected with a selection list, the
list is sorted in place and `selectedRows` is rebuilt from its rows. -/
def SelectionHelper.prepare (ctx : ExportContext) : ExportContext :=
  if ctx.exportSelection = SelectionSelected then
    match ctx.selection with
    | some sel =>
      let sorted := stdSort sel
      { ctx with selection := some sorted, selectedRows := sorted.map QModelIndex.row }
    | none => ctx
  else ctx

/-! ## QString operations used by the exporter -/

/-- `QString::number(uint)` in base 10. -/
def QString.ofNat (n : Nat) : QString := Nat.toDigits 10 n

/-- `QString::number(int)` in base 10. -/
def QString.ofInt (i : Int) : QString :=
  if i < 0 then '-' :: Nat.toDigits 10 (-i).toNat else Nat.toDigits 10 i.toNat

/-- One element of a scanned `QString::arg` template: a literal character, or
a place marker `%N`, `%NN`, `%LN`, `%LNN` with its number and its own text. -/
inductive ArgPiece where
  | text (c : Char)
  | marker (n : Nat) (raw : List Char)
deriving DecidableEq, Repr

/-- Where the scan of `findArgEscapes` stands: outside a marker, after `%`,
after `%L`, or after the first digit of a marker. -/
inductive ArgScan where
  | normal
  | percent
  | percentL
  | digit (d : Nat) (raw : List Char)
deriving DecidableEq, Repr

/-- The code point of the digit zero of every block of decimal digits
(general category Nd) of the Basic Multilingual Plane, from the ASCII digits
to the fullwidth ones; the ten digits of a block are consecutive. -/
def decimalDigitZeros : List Nat :=
  [0x0030, 0x0660, 0x06F0, 0x07C0, 0x0966, 0x09E6, 0x0A66, 0x0AE6, 0x0B66, 0x0BE6,
   0x0C66, 0x0CE6, 0x0D66, 0x0DE6, 0x0E50, 0x0ED0, 0x0F20, 0x1040, 0x1090, 0x17E0,
   0x1810, 0x1946, 0x19D0, 0x1A80, 0x1A90, 0x1B50, 0x1BB0, 0x1C40, 0x1C50, 0xA620,
   0xA8D0, 0xA900, 0xA9D0, 0xA9F0, 0xAA50, 0xABF0, 0xFF10]

/-- `QChar::digitValue`: the value of a decimal digit of any script, `none`
for every other character. A character outside the Basic Multilingual Plane is
a pair of surrogates in a `QString`, and a surrogate has no digit value. -/
def digitValue (c : Char) : Option Nat :=
  (decimalDigitZeros.find? (fun z => z ≤ c.toNat ∧ c.toNat < z + 10)).map
    (fun z => c.toNat - z)

/-- A character read outside a marker. -/
def ArgScan.plain (c : Char) : ArgScan × List ArgPiece :=
  if c = '%' then (ArgScan.percent, []) else (ArgScan.normal, [ArgPiece.text c])

/-- One character of the scan: the next state and the pieces completed. A
`%` or `%L` that no digit follows is literal text and the scan resumes at the
character after it; a marker takes at most two digits. -/
def ArgScan.step (st : ArgScan) (c : Char) : ArgScan × List ArgPiece :=
  match st with
  | ArgScan.normal => ArgScan.plain c
  | ArgScan.percent =>
    if c = 'L' then (ArgScan.percentL, [])
    else match digitValue c with
      | some d => (ArgScan.digit d ['%', c], [])
      | none => ((ArgScan.plain c).1, ArgPiece.text '%' :: (ArgScan.plain c).2)
  | ArgScan.percentL =>
    match digitValue c with
    | some d => (ArgScan.digit d ['%', 'L', c], [])
    | none =>
      ((ArgScan.plain c).1, ArgPiece.text '%' :: ArgPiece.text 'L' :: (ArgScan.plain c).2)
  | ArgScan.digit d raw =>
    match digitValue c with
    | some e => (ArgScan.normal, [ArgPiece.marker (10 * d + e) (raw ++ [c])])
    | none => ((ArgScan.plain c).1, ArgPiece.marker d raw :: (ArgScan.plain c).2)

/-- What an unfinished marker at the end of the string amounts to. -/
def ArgScan.flush (st : ArgScan) : List ArgPiece :=
  match st with
  | ArgScan.normal => []
  | ArgScan.percent => [ArgPiece.text '%']
  | ArgScan.percentL => [ArgPiece.text '%', ArgPiece.text 'L']
  | ArgScan.digit d raw => [ArgPiece.marker d raw]

/-- The pieces of a template, scanned left to right. -/
def argPieces (st : ArgScan) (s : QString) : List ArgPiece :=
  match s with
  | [] => st.flush
  | c :: rest => (st.step c).2 ++ argPieces (st.step c).1 rest

/-- The lowest marker number among the pieces (`min_escape`). -/
def minEscape (ps : List ArgPiece) : Option Nat :=
  match ps with
  | [] => none
  | ArgPiece.text _ :: rest => minEscape rest
  | ArgPiece.marker n _ :: rest =>
    match minEscape rest with
    | none => some n
    | some m => some (min n m)

/-- The text a piece becomes when marker `m` is replaced by `a`. -/
def ArgPiece.subst (m : Nat) (a : QString) (p : ArgPiece) : QString :=
  match p with
  | ArgPiece.text c => [c]
  | ArgPiece.marker n raw => if n = m then a else raw

/-- The text of the template a piece stands for. -/
def ArgPiece.raw (p : ArgPiece) : QString :=
  match p with
  | ArgPiece.text c => [c]
  | ArgPiece.marker _ raw => raw

/-- The text an unfinished marker has consumed. -/
def ArgScan.pending (st : ArgScan) : QString :=
  match st with
  | ArgScan.normal => []
  | ArgScan.percent => ['%']
  | ArgScan.percentL => ['%', 'L']
  | ArgScan.digit _ raw => raw

/-- The template `s` holds no place marker numbered 2 or lower. -/
def NoLowMarker (s : QString) : Prop :=
  ∀ n raw, ArgPiece.marker n raw ∈ argPieces ArgScan.normal s → 2 < n

/-- `QString::arg(const QString &a)`: every occurrence of the lowest-numbered
place marker is replaced by `a`; a string without a marker is returned as it
is. The replacement text is not scanned again, but a later `arg` call scans
the whole result. -/
def QString.arg (s : QString) (a : QString) : QString :=
  match minEscape (argPieces ArgScan.normal s) with
  | none => s
  | some m => ((argPieces ArgScan.normal s).map (ArgPiece.subst m a)).flatten

/-- `QString::arg(uint a, int fieldWidth, int base = 10, QChar fillChar)` with
a non-negative field width: the decimal text of `a`, padded on the left with
`fillChar` up to the width. A marker written `%L` takes the same text (the
digit grouping of a locale is not modelled). -/
def QString.argNat (s : QString) (a : Nat) (fieldWidth : Nat) (fillChar : Char) : QString :=
  QString.arg s (List.leftpad fieldWidth fillChar (QString.ofNat a))

/-- `QString::arg(int a)`. -/
def QString.argInt (s : QString) (a : Int) : QString :=
  QString.arg s (QString.ofInt a)

/-- `QChar::isSpace`: the space, the controls U+0009 to U+000D (tab, line
feed, vertical tab, form feed, carriage return), next line U+0085, and every
character of the general categories Zs, Zl and Zp: the no-break space U+00A0,
U+1680, U+2000 to U+200A, the line and paragraph separators U+2028 and U+2029,
U+202F, U+205F and the ideographic space U+3000. -/
def isSpace (c : Char) : Bool :=
  c = ' ' || (0x09 ≤ c.toNat && c.toNat ≤ 0x0D) || c.toNat = 0x85 || c.toNat = 0xA0 ||
  c.toNat = 0x1680 || (0x2000 ≤ c.toNat && c.toNat ≤ 0x200A) ||
  c.toNat = 0x2028 || c.toNat = 0x2029 || c.toNat = 0x202F || c.toNat = 0x205F ||
  c.toNat = 0x3000

/-- `QString::simplified`: whitespace is removed from both ends and every
internal run of whitespace becomes one space. -/
def QString.simplified (s : QString) : QString :=
  [' '].intercalate ((s.splitOnP isSpace).filter (fun w => !w.isEmpty))

/-- `QString::toLatin1`: one byte per character, `?` for a character outside
Latin-1. -/
def QString.toLatin1 (s : QString) : QByteArray :=
  s.map (fun c => if c.toNat < 256 then c.toNat else 63)

/-- `QString::toUtf8`. -/
def QString.toUtf8 (s : QString) : QByteArray :=
  (s.map (fun c => (String.utf8EncodeChar c).map UInt8.toNat)).flatten

/-- The C string a `constData()` pointer denotes: the bytes before the first
zero byte. -/
def QByteArray.constData (b : QByteArray) : QByteArray := b.takeWhile (fun x => x ≠ 0)

/-! ## QDltMsg -/

/-- The record `QDltMsg`, by the getters the exporter calls. -/
structure QDltMsg where
  timeString : QString
  microseconds : Nat
  timestamp : Nat
  messageCounter : Nat
  ecuid : QString
  apid : QString
  ctid : QString
  sessionid : Nat
  typeString : QString
  subtypeString : QString
  modeString : QString
  numberOfArguments : Nat
  stringHeader : QString
  stringPayload : QString
deriving DecidableEq, Repr, Inhabited

/-! ## Progress observers -/

/-- The `QProgressDialog`: every value passed to `setValue`, oldest first, and
whether the dialog is on screen. -/
structure QProgressDialog where
  values : List Int
  visible : Bool
deriving DecidableEq, Repr

/-- `DialogProgressHandler`: the dialog (null until `start`) and the members
`_size` and `_last`. -/
structure DialogProgressHandler where
  _dialog : Option QProgressDialog
  _size : Int
  _last : Int
deriving DecidableEq, Repr

/-- The value of `std::round(double(count) / _size * 100.0)` in exact
arithmetic: the integer nearest to `100 * count / size`, a half rounded away
from zero. The `double` computation gives this value wherever the quotient and
the product are representable, as they are when `size` is a power of two. -/
def percent (count size : Int) : Int :=
  (100 * count).sign * size.sign *
    (((2 * (100 * count).natAbs + size.natAbs) / (2 * size.natAbs) : Nat) : Int)

/-- The constructor of `DialogProgressHandler`: `_dialog(nullptr)`, `_size(0)`;
`_last` is not initialized and not read before `start` assigns it. -/
def DialogProgressHandler.new : DialogProgressHandler :=
  { _dialog := none, _size := 0, _last := 0 }

/-- `DialogProgressHandler::start`. -/
def DialogProgressHandler.start (_h : DialogProgressHandler) (size : Int) :
    DialogProgressHandler :=
  { _size := size, _last := 0, _dialog := some { values := [], visible := true } }

/-- `DialogProgressHandler::update`. With `_size = 0` the quotient is not a
number and its conversion to `int` is undefined. -/
def DialogProgressHandler.update (h : DialogProgressHandler) (count : Int) :
    Option DialogProgressHandler :=
  match h._dialog with
  | none => some h
  | some d =>
    if h._size = 0 then none
    else
      let progress := percent count h._size
      if progress > h._last then
        some { h with _dialog := some { d with values := d.values ++ [progress] } }
      else some h

/-- `DialogProgressHandler::done`. -/
def DialogProgressHandler.done (h : DialogProgressHandler) : DialogProgressHandler :=
  match h._dialog with
  | none => h
  | some d => { h with _dialog := some { d with visible := false } }

/-- A sequence of `update` calls, first to last. -/
def DialogProgressHandler.updates (h : DialogProgressHandler) (counts : List Int) :
    Option DialogProgressHandler :=
  match counts with
  | [] => some h
  | count :: rest =>
    match h.update count with
    | none => none
    | some h1 => h1.updates rest

/-- A `ProgressHandler`: the interactive or the silent observer. -/
inductive ProgressHandler where
  | dialog (h : DialogProgressHandler)
  | silent
deriving DecidableEq, Repr

def ProgressHandler.start (p : ProgressHandler) (size : Int) : ProgressHandler :=
  match p with
  | ProgressHandler.dialog h => ProgressHandler.dialog (h.start size)
  | ProgressHandler.silent => ProgressHandler.silent

def ProgressHandler.update (p : ProgressHandler) (count : Int) : Option ProgressHandler :=
  match p with
  | ProgressHandler.dialog h => (h.update count).map ProgressHandler.dialog
  | ProgressHandler.silent => some ProgressHandler.silent

def ProgressHandler.done (p : ProgressHandler) : ProgressHandler :=
  match p with
  | ProgressHandler.dialog h => ProgressHandler.dialog h.done
  | ProgressHandler.silent => ProgressHandler.silent

/-! ## Format helpers -/

/-- What a helper method works on: the shared `ExportContext` and the
helper object's own members together with whatever else it touches. -/
structure Env (σ : Type) where
  ctx : ExportContext
  self : σ

/-- The interface `FormatHelper`. `msg` and `buf` are passed by reference, so
a method returns them. A method evaluates to `none` where the C++ method has
undefined behaviour. -/
structure FormatHelper (σ : Type) where
  open_ : Env σ → Option (Bool × Env σ)
  prepare : Env σ → Option (Bool × Env σ)
  readMsg : Int → QDltMsg → QByteArray → Env σ → Option (Bool × QDltMsg × QByteArray × Env σ)
  decodeMsg : QDltMsg → QByteArray → Env σ → Option (QDltMsg × QByteArray × Env σ)
  exportMsg : Int → QDltMsg → QByteArray → Env σ → Option (Bool × QDltMsg × QByteArray × Env σ)
  finish : Env σ → Option (Bool × Env σ)

/-- The two collaborators of a helper that are not part of the context
record: `QDltMsg::setMsg` (parse a raw buffer into the record; false when the
buffer is not a record) and `QDltPluginManager::decodeMsg`. -/
structure QDlt where
  setMsg : QDltMsg → QByteArray → Bool × QDltMsg
  decodeMsg : QDltMsg → Bool → QDltMsg

/-- `ErrorReporter::report` on the context reporter. -/
def Env.report {σ : Type} (env : Env σ) (text : QString) : Env σ :=
  { env with ctx := { env.ctx with reporter := env.ctx.reporter ++ [text] } }

/-- `ctx->to->write(bytes)`: undefined on a null `to`. -/
def Env.write {σ : Type} (env : Env σ) (bytes : QByteArray) : Option (Int × Env σ) :=
  match env.ctx.to_ with
  | none => none
  | some f => some ((f.write bytes).1, { env with ctx := { env.ctx with to_ := some (f.write bytes).2 } })

/-- `BaseFormatHelper::prepare`. -/
def BaseFormatHelper.prepare {σ : Type} (env : Env σ) : Option (Bool × Env σ) :=
  some (true, env)

/-- `BaseFormatHelper::readMsg`. -/
def BaseFormatHelper.readMsg {σ : Type} (lib : QDlt) (num : Int) (msg : QDltMsg)
    (_buf : QByteArray) (env : Env σ) : Option (Bool × QDltMsg × QByteArray × Env σ) :=
  match SelectionHelper.getMsg env.ctx num with
  | none => none
  | some buf =>
    if buf.isEmpty then some (false, msg, buf, env)
    else some ((lib.setMsg msg buf).1, (lib.setMsg msg buf).2, buf, env)

/-- `BaseFormatHelper::decodeMsg`. -/
def BaseFormatHelper.decodeMsg {σ : Type} (lib : QDlt) (msg : QDltMsg) (buf : QByteArray)
    (env : Env σ) : Option (QDltMsg × QByteArray × Env σ) :=
  some (lib.decodeMsg msg env.ctx.silent_mode, buf, env)

/-- `BaseFormatHelper::finish`. -/
def BaseFormatHelper.finish {σ : Type} (env : Env σ) : Option (Bool × Env σ) :=
  some (true, { env with ctx := { env.ctx with to_ := env.ctx.to_.map QFile.close } })

/-- `DltFormatHelper::open` and `BaseTextFormatHelper::open`, which differ in
the text flag of the open mode only. -/
def DltFormatHelper.open_ {σ : Type} (env : Env σ) : Option (Bool × Env σ) :=
  match env.ctx.to_ with
  | none => none
  | some f =>
    if (f.open_).1 then some (true, { env with ctx := { env.ctx with to_ := some (f.open_).2 } })
    else some (false, Env.report { env with ctx := { env.ctx with to_ := some (f.open_).2 } }
      "Cannot open the export file.".toList)

/-- `DltFormatHelper::decodeMsg`: nothing. -/
def DltFormatHelper.decodeMsg {σ : Type} (msg : QDltMsg) (buf : QByteArray) (env : Env σ) :
    Option (QDltMsg × QByteArray × Env σ) :=
  some (msg, buf, env)

/-- `DltFormatHelper::exportMsg`. -/
def DltFormatHelper.exportMsg {σ : Type} (_num : Int) (msg : QDltMsg) (buf : QByteArray)
    (env : Env σ) : Option (Bool × QDltMsg × QByteArray × Env σ) :=
  match Env.write env buf with
  | none => none
  | some (_, env1) => some (true, msg, buf, env1)

/-- The helper built for `FormatDlt`. -/
def DltFormatHelper (σ : Type) (lib : QDlt) : FormatHelper σ where
  open_ := DltFormatHelper.open_
  prepare := BaseFormatHelper.prepare
  readMsg := BaseFormatHelper.readMsg lib
  decodeMsg := DltFormatHelper.decodeMsg
  exportMsg := DltFormatHelper.exportMsg
  finish := BaseFormatHelper.finish

/-- `BaseTextFormatHelper::open`. -/
def BaseTextFormatHelper.open_ {σ : Type} (env : Env σ) : Option (Bool × Env σ) :=
  DltFormatHelper.open_ env

/-- The line `PlainTextFormatHelper::exportMsg` builds for a translated index. -/
def PlainTextFormatHelper.text (index : Int) (msg : QDltMsg) : QString :=
  QString.argInt "%1 ".toList index ++ msg.stringHeader ++ " ".toList ++
    QString.simplified msg.stringPayload ++ "\n".toList

/-- `PlainTextFormatHelper::exportMsg`, over the variant's `writeMessage`. -/
def PlainTextFormatHelper.exportMsg {σ : Type} (writeMessage : QString → Env σ → Option (Env σ))
    (num : Int) (msg : QDltMsg) (buf : QByteArray) (env : Env σ) :
    Option (Bool × QDltMsg × QByteArray × Env σ) :=
  match SelectionHelper.selection env.ctx num with
  | none => none
  | some index =>
    if index < 0 then some (false, msg, buf, env)
    else
      match writeMessage (PlainTextFormatHelper.text index msg) env with
      | none => none
      | some env1 => some (true, msg, buf, env1)

/-- `ASCIIFormatHelper::writeMessage`. -/
def ASCIIFormatHelper.writeMessage {σ : Type} (text : QString) (env : Env σ) : Option (Env σ) :=
  (Env.write env (QByteArray.constData (QString.toLatin1 text))).map Prod.snd

/-- `UTF8FormatHelper::writeMessage`. -/
def UTF8FormatHelper.writeMessage {σ : Type} (text : QString) (env : Env σ) : Option (Env σ) :=
  (Env.write env (QByteArray.constData (QString.toUtf8 text))).map Prod.snd

/-- The members of a `ClipboardFormatHelper` and the application clipboard. -/
structure Clipboard where
  text : QString
  clipboard : QString
deriving DecidableEq, Repr

/-- `ClipboardFormatHelper::writeMessage`: `PlainTextFormatHelper::finish()`
(the inherited `BaseFormatHelper::finish`), then the message is appended to
the member `text`. -/
def ClipboardFormatHelper.writeMessage (message : QString) (env : Env Clipboard) :
    Option (Env Clipboard) :=
  match BaseFormatHelper.finish env with
  | none => none
  | some (_, env1) => some { env1 with self := { env1.self with text := env1.self.text ++ message } }

/-- `ClipboardFormatHelper::open`: the body is empty, so control leaves a
`bool` function without a `return`. -/
def ClipboardFormatHelper.open_ (_env : Env Clipboard) : Option (Bool × Env Clipboard) :=
  none

/-- `ClipboardFormatHelper::finish`. -/
def ClipboardFormatHelper.finish (env : Env Clipboard) : Option (Bool × Env Clipboard) :=
  some (true, { env with self := { env.self with clipboard := env.self.text } })

/-- The helper built for `FormatAscii`. -/
def ASCIIFormatHelper (σ : Type) (lib : QDlt) : FormatHelper σ where
  open_ := BaseTextFormatHelper.open_
  prepare := BaseFormatHelper.prepare
  readMsg := BaseFormatHelper.readMsg lib
  decodeMsg := BaseFormatHelper.decodeMsg lib
  exportMsg := PlainTextFormatHelper.exportMsg ASCIIFormatHelper.writeMessage
  finish := BaseFormatHelper.finish

/-- The helper built for `FormatUTF8`. -/
def UTF8FormatHelper (σ : Type) (lib : QDlt) : FormatHelper σ where
  open_ := BaseTextFormatHelper.open_
  prepare := BaseFormatHelper.prepare
  readMsg := BaseFormatHelper.readMsg lib
  decodeMsg := BaseFormatHelper.decodeMsg lib
  exportMsg := PlainTextFormatHelper.exportMsg UTF8FormatHelper.writeMessage
  finish := BaseFormatHelper.finish

/-- The helper built for `FormatClipboard`. -/
def ClipboardFormatHelper (lib : QDlt) : FormatHelper Clipboard where
  open_ := ClipboardFormatHelper.open_
  prepare := BaseFormatHelper.prepare
  readMsg := BaseFormatHelper.readMsg lib
  decodeMsg := BaseFormatHelper.decodeMsg lib
  exportMsg := PlainTextFormatHelper.exportMsg ClipboardFormatHelper.writeMessage
  finish := ClipboardFormatHelper.finish

/-! ## CSVFormatHelper -/

/-- `QString::replace(QChar before, const QString &after)`. -/
def QString.replaceChar (s : QString) (before : Char) (after : QString) : QString :=
  (s.map (fun c => if c = before then after else [c])).flatten

/-- `CSVFormatHelper::escapeCSVValue`. -/
def CSVFormatHelper.escapeCSVValue (arg : QString) : QString :=
  QString.arg "\"%1\"".toList (QString.replaceChar arg '"' "\"\"".toList)

/-- A time string as `QDltMsg::getTimeString()` gives it: the time of the
record rendered as a date and a time of day. Of that rendering the exporter
relies on one fact, which is all that is asked here: it holds no `%`. -/
def IsTimeString (t : QString) : Prop := ∀ c ∈ t, c ≠ '%'

/-- The time field of a CSV row:
`QString("%1.%2").arg(getTimeString()).arg(getMicroseconds(), 6, 10, '0')`. -/
def CSVFormatHelper.timeField (timeString : QString) (microseconds : Nat) : QString :=
  QString.argNat (QString.arg "%1.%2".toList timeString) microseconds 6 '0'

/-- The timestamp field of a CSV row:
`QString("%1.%2").arg(getTimestamp() / 10000).arg(getTimestamp() % 10000, 4, 10, '0')`.
Division and remainder of an `unsigned int` cannot overflow. -/
def CSVFormatHelper.timestampField (timestamp : Nat) : QString :=
  QString.argNat (QString.argNat "%1.%2".toList (timestamp / 10000) 0 ' ')
    (timestamp % 10000) 4 '0'

/-- The row text `CSVFormatHelper::writeCSVLine` builds from its arguments. -/
def CSVFormatHelper.lineText (index : Int) (msg : QDltMsg) : QString :=
  CSVFormatHelper.escapeCSVValue (QString.argInt "%1".toList index) ++ ",".toList ++
  (CSVFormatHelper.escapeCSVValue
    (CSVFormatHelper.timeField msg.timeString msg.microseconds) ++ ",".toList) ++
  (CSVFormatHelper.escapeCSVValue (CSVFormatHelper.timestampField msg.timestamp)
    ++ ",".toList) ++
  (CSVFormatHelper.escapeCSVValue (QString.argNat "%1".toList msg.messageCounter 0 ' ')
    ++ ",".toList) ++
  (CSVFormatHelper.escapeCSVValue (QString.arg "%1".toList msg.ecuid) ++ ",".toList) ++
  (CSVFormatHelper.escapeCSVValue (QString.arg "%1".toList msg.apid) ++ ",".toList) ++
  (CSVFormatHelper.escapeCSVValue (QString.arg "%1".toList msg.ctid) ++ ",".toList) ++
  (CSVFormatHelper.escapeCSVValue (QString.argNat "%1".toList msg.sessionid 0 ' ')
    ++ ",".toList) ++
  (CSVFormatHelper.escapeCSVValue (QString.arg "%1".toList msg.typeString) ++ ",".toList) ++
  (CSVFormatHelper.escapeCSVValue (QString.arg "%1".toList msg.subtypeString)
    ++ ",".toList) ++
  (CSVFormatHelper.escapeCSVValue (QString.arg "%1".toList msg.modeString) ++ ",".toList) ++
  (CSVFormatHelper.escapeCSVValue (QString.argNat "%1".toList msg.numberOfArguments 0 ' ')
    ++ ",".toList) ++
  CSVFormatHelper.escapeCSVValue (QString.simplified msg.stringPayload) ++
  "\n".toList

/-- `CSVFormatHelper::writeCSVLine`. -/
def CSVFormatHelper.writeCSVLine {σ : Type} (index : Int) (msg : QDltMsg) (env : Env σ) :
    Option (Env σ) :=
  (Env.write env (QByteArray.constData
    (QString.toLatin1 (CSVFormatHelper.lineText index msg)))).map Prod.snd

/-- `CSVFormatHelper::writeCSVHeader`, over the thirteen names
`FieldNames::getName` gives. -/
def CSVFormatHelper.writeCSVHeader {σ : Type} (fieldNames : List QString) (env : Env σ) :
    Option (Bool × Env σ) :=
  match Env.write env (QByteArray.constData (QString.toLatin1 (fieldNames.foldl QString.arg
    "\"%1\",\"%2\",\"%3\",\"%4\",\"%5\",\"%6\",\"%7\",\"%8\",\"%9\",\"%10\",\"%11\",\"%12\",\"%13\"\n".toList))) with
  | none => none
  | some (n, env1) => some (if n < 0 then false else true, env1)

/-- `CSVFormatHelper::prepare`. -/
def CSVFormatHelper.prepare {σ : Type} (fieldNames : List QString) (env : Env σ) :
    Option (Bool × Env σ) :=
  match CSVFormatHelper.writeCSVHeader fieldNames env with
  | none => none
  | some (false, env1) => some (false, Env.report env1 "Cannot write to export file.".toList)
  | some (true, env1) => some (true, env1)

/-- The body of `CSVFormatHelper::exportMsg`: the state it leaves and the
value of the `return` statement it reaches, `none` where it reaches the end
of the function without one. -/
def CSVFormatHelper.exportMsgBody {σ : Type} (num : Int) (msg : QDltMsg) (env : Env σ) :
    Option (Option Bool × Env σ) :=
  match SelectionHelper.selection env.ctx num with
  | none => none
  | some index =>
    if index < 0 then some (some false, env)
    else (CSVFormatHelper.writeCSVLine num msg env).map (fun env1 => (none, env1))

/-- `CSVFormatHelper::exportMsg` as the driver sees it: a call that ends
without a `return` has no value. -/
def CSVFormatHelper.exportMsg {σ : Type} (num : Int) (msg : QDltMsg) (buf : QByteArray)
    (env : Env σ) : Option (Bool × QDltMsg × QByteArray × Env σ) :=
  match CSVFormatHelper.exportMsgBody num msg env with
  | some (some ok, env1) => some (ok, msg, buf, env1)
  | _ => none

/-- The helper built for `FormatCsv`. -/
def CSVFormatHelper (σ : Type) (lib : QDlt) (fieldNames : List QString) : FormatHelper σ where
  open_ := BaseTextFormatHelper.open_
  prepare := CSVFormatHelper.prepare fieldNames
  readMsg := BaseFormatHelper.readMsg lib
  decodeMsg := BaseFormatHelper.decodeMsg lib
  exportMsg := CSVFormatHelper.exportMsg
  finish := BaseFormatHelper.finish

/-! ## Reading a CSV row back

The reference side of the round trip: the escaping rule of the specification
read in the other direction. -/

/-- Every doubled quote becomes one quote; a quote that stands alone has no
reading. -/
def CSV.undouble : QString → Option QString
  | [] => some []
  | c :: rest =>
    if c = '"' then
      match rest with
      | [] => none
      | d :: rest1 => if d = '"' then (CSV.undouble rest1).map (fun u => '"' :: u) else none
    else (CSV.undouble rest).map (fun u => c :: u)

/-- Un-escaping one field: strip the outer quotes, replace each doubled quote
by one. -/
def CSV.unescape (s : QString) : Option QString :=
  match s with
  | [] => none
  | c :: rest =>
    if c = '"' ∧ rest.getLast? = some '"' then CSV.undouble rest.dropLast else none

/-- Where the reader of a row stands: before a field, inside the quotes of a
field, just after a quote inside a field, or after the end of the row. -/
inductive CSV.Scan where
  | start
  | inside
  | quote
  | finished
deriving DecidableEq, Repr

/-- Splitting a row by the escaping rule. A field starts with a quote; inside
it a doubled quote is one quote of the value and a single quote ends the
field; a comma after a field starts the next one and a line feed after a field
ends the row. `cur` is the value read so far, `done` the fields completed. -/
def CSV.splitFrom (st : CSV.Scan) (cur : QString) (done : List QString) :
    QString → Option (List QString)
  | [] => if st = CSV.Scan.finished then some done else none
  | c :: rest =>
    match st with
    | CSV.Scan.start =>
      if c = '"' then CSV.splitFrom CSV.Scan.inside [] done rest else none
    | CSV.Scan.inside =>
      if c = '"' then CSV.splitFrom CSV.Scan.quote cur done rest
      else CSV.splitFrom CSV.Scan.inside (cur ++ [c]) done rest
    | CSV.Scan.quote =>
      if c = '"' then CSV.splitFrom CSV.Scan.inside (cur ++ ['"']) done rest
      else if c = ',' then CSV.splitFrom CSV.Scan.start [] (done ++ [cur]) rest
      else if c = '\n' then CSV.splitFrom CSV.Scan.finished [] (done ++ [cur]) rest
      else none
    | CSV.Scan.finished => none

/-- The fields of a row, `none` when the text is not a row. -/
def CSV.splitRow (row : QString) : Option (List QString) :=
  CSV.splitFrom CSV.Scan.start [] [] row

/-- The row of a list of field values: the escaped fields separated by
commas, terminated by a line feed. -/
def CSV.joinRow (fields : List QString) : QString :=
  [','].intercalate (fields.map CSVFormatHelper.escapeCSVValue) ++ ['\n']

/-- The thirteen values `writeCSVLine` escapes, in order. -/
def CSVFormatHelper.fieldValues (index : Int) (msg : QDltMsg) : List QString :=
  [QString.argInt "%1".toList index,
   CSVFormatHelper.timeField msg.timeString msg.microseconds,
   CSVFormatHelper.timestampField msg.timestamp,
   QString.argNat "%1".toList msg.messageCounter 0 ' ',
   QString.arg "%1".toList msg.ecuid,
   QString.arg "%1".toList msg.apid,
   QString.arg "%1".toList msg.ctid,
   QString.argNat "%1".toList msg.sessionid 0 ' ',
   QString.arg "%1".toList msg.typeString,
   QString.arg "%1".toList msg.subtypeString,
   QString.arg "%1".toList msg.modeString,
   QString.argNat "%1".toList msg.numberOfArguments 0 ' ',
   QString.simplified msg.stringPayload]

/-! ## DltExporterImpl: the driver -/

/-- One call the driver makes on the helper or the observer, with the result
the call returned. The driver state keeps the calls in order. -/
inductive Call where
  | open_ (ok : Bool)
  | prepare (ok : Bool)
  | progressStart (size : Int)
  | progressUpdate (num : Int)
  | readMsg (num : Int) (ok : Bool)
  | decodeMsg (num : Int)
  | exportMsg (num : Int) (ok : Bool)
  | progressDone
  | finish (ok : Bool)
deriving DecidableEq, Repr

/-- The `QMessageBox::warning` at the end of a run: its five numbers. -/
structure Summary where
  exportCounter : Int
  size : Int
  readErrors : Int
  exportErrors : Int
  startFinishError : Int
deriving DecidableEq, Repr

/-- The state of `DltExporterImpl::exportMessages`: the helper's environment,
the locals `msg`, `buf` and the four counters, the observer, the summary shown
(if any) and the calls made so far. -/
structure Run (σ : Type) where
  env : Env σ
  msg : QDltMsg
  buf : QByteArray
  progress : ProgressHandler
  readErrors : Int
  exportErrors : Int
  exportCounter : Int
  startFinishError : Int
  summary : Option Summary
  trace : List Call

/-- `DltExporterImpl::start`: the result, the environment left, and the helper
calls made. -/
def DltExporterImpl.start {σ : Type} (helper : FormatHelper σ) (env : Env σ) :
    Option (Bool × Env σ × List Call) :=
  match helper.open_ { env with ctx := SelectionHelper.prepare env.ctx } with
  | none => none
  | some (false, env1) => some (false, env1, [Call.open_ false])
  | some (true, env1) =>
    match helper.prepare env1 with
    | none => none
    | some (ok, env2) => some (ok, env2, [Call.open_ true, Call.prepare ok])

/-- The body of the `for` loop of `exportMessages` at position `num`. -/
def DltExporterImpl.loopBody {σ : Type} (helper : FormatHelper σ) (num : Int) (r : Run σ) :
    Option (Run σ) :=
  match r.progress.update num with
  | none => none
  | some progress =>
    match helper.readMsg num r.msg r.buf r.env with
    | none => none
    | some (false, msg, buf, env) =>
      some { r with env := env, msg := msg, buf := buf, progress := progress,
                    readErrors := r.readErrors + 1,
                    trace := r.trace ++ [Call.progressUpdate num, Call.readMsg num false] }
    | some (true, msg, buf, env) =>
      match helper.decodeMsg msg buf env with
      | none => none
      | some (msg1, buf1, env1) =>
        match helper.exportMsg num msg1 buf1 env1 with
        | none => none
        | some (false, msg2, buf2, env2) =>
          some { r with env := env2, msg := msg2, buf := buf2, progress := progress,
                        exportErrors := r.exportErrors + 1,
                        trace := r.trace ++ [Call.progressUpdate num, Call.readMsg num true,
                          Call.decodeMsg num, Call.exportMsg num false] }
        | some (true, msg2, buf2, env2) =>
          some { r with env := env2, msg := msg2, buf := buf2, progress := progress,
                        exportCounter := r.exportCounter + 1,
                        trace := r.trace ++ [Call.progressUpdate num, Call.readMsg num true,
                          Call.decodeMsg num, Call.exportMsg num true] }

/-- The loop `for (int num = 0; num < size; num++)` from `num` on. `fuel`
bounds the iterations left; `exportMessages` passes `size` itself, which the
loop from 0 never exceeds (`exportLoop_fuel`). -/
def DltExporterImpl.exportLoop {σ : Type} (helper : FormatHelper σ) (size : Int) (fuel : Nat)
    (num : Int) (r : Run σ) : Option (Run σ) :=
  match fuel with
  | 0 => some r
  | fuel + 1 =>
    if num < size then
      match DltExporterImpl.loopBody helper num r with
      | none => none
      | some r1 => DltExporterImpl.exportLoop helper size fuel (num + 1) r1
    else some r

/-- The observer `exportMessages` creates: the dialog when the context flag
`silent_mode` is set, the silent one otherwise. -/
def DltExporterImpl.newProgress (ctx : ExportContext) : ProgressHandler :=
  if ctx.silent_mode then ProgressHandler.dialog DialogProgressHandler.new
  else ProgressHandler.silent

/-- The end of `exportMessages`: the summary box when a tally is positive. -/
def DltExporterImpl.report {σ : Type} (size : Int) (r : Run σ) : Run σ :=
  if r.startFinishError > 0 ∨ r.readErrors > 0 ∨ r.exportErrors > 0 then
    { r with summary := some { exportCounter := r.exportCounter, size := size,
                               readErrors := r.readErrors, exportErrors := r.exportErrors,
                               startFinishError := r.startFinishError } }
  else r

/-- The state in which `exportMessages` enters the loop after `start`
succeeded and left `env1`: fresh locals, counters at zero, the observer
started with `size`. -/
def DltExporterImpl.loopStart {σ : Type} (env env1 : Env σ) (calls : List Call) : Run σ :=
  { env := env1, msg := default, buf := [],
    progress := (DltExporterImpl.newProgress env.ctx).start (SelectionHelper.size env1.ctx),
    readErrors := 0, exportErrors := 0, exportCounter := 0, startFinishError := 0,
    summary := none,
    trace := calls ++ [Call.progressStart (SelectionHelper.size env1.ctx)] }

/-- `DltExporterImpl::exportMessages`. -/
def DltExporterImpl.exportMessages {σ : Type} (helper : FormatHelper σ) (env : Env σ) :
    Option (Run σ) :=
  match DltExporterImpl.start helper env with
  | none => none
  | some (false, env1, calls) =>
    some { env := env1, msg := default, buf := [],
           progress := DltExporterImpl.newProgress env.ctx,
           readErrors := 0, exportErrors := 0, exportCounter := 0, startFinishError := 1,
           summary := none, trace := calls }
  | some (true, env1, calls) =>
    match DltExporterImpl.exportLoop helper (SelectionHelper.size env1.ctx)
        (SelectionHelper.size env1.ctx).toNat 0 (DltExporterImpl.loopStart env env1 calls) with
    | none => none
    | some r =>
      match helper.finish r.env with
      | none => none
      | some (ok, env2) =>
        some (DltExporterImpl.report (SelectionHelper.size env1.ctx)
          { r with env := env2, progress := r.progress.done,
                   startFinishError := if ok then r.startFinishError
                                       else r.startFinishError + 1,
                   trace := r.trace ++ [Call.progressDone, Call.finish ok] })

/-- The `readMsg` calls of a trace, in order: position and result. -/
def readCalls (t : List Call) : List (Int × Bool) :=
  t.filterMap (fun c => match c with
    | Call.readMsg n ok => some (n, ok)
    | _ => none)

/-- The `exportMsg` calls of a trace, in order: position and result. -/
def exportCalls (t : List Call) : List (Int × Bool) :=
  t.filterMap (fun c => match c with
    | Call.exportMsg n ok => some (n, ok)
    | _ => none)

/-- The `decodeMsg` calls of a trace, in order. -/
def decodeCalls (t : List Call) : List Int :=
  t.filterMap (fun c => match c with
    | Call.decodeMsg n => some n
    | _ => none)

/-- The positions `0, 1, ..., size - 1`. -/
def positions (size : Int) : List Int := (List.range size.toNat).map Int.ofNat

/-- The counters agree with the calls made up to position `num`: `readMsg`
was called once at each of `0 .. num - 1` in order, `exportMsg` exactly at the
positions whose read succeeded, and each counter is the number of calls with
the matching outcome. -/
def Tallied {σ : Type} (num : Int) (r : Run σ) : Prop :=
  (readCalls r.trace).map Prod.fst = positions num ∧
  (exportCalls r.trace).map Prod.fst
    = ((readCalls r.trace).filter (fun c => c.2)).map Prod.fst ∧
  decodeCalls r.trace = (exportCalls r.trace).map Prod.fst ∧
  r.readErrors = (((readCalls r.trace).filter (fun c => !c.2)).length : Int) ∧
  r.exportErrors = (((exportCalls r.trace).filter (fun c => !c.2)).length : Int) ∧
  r.exportCounter = (((exportCalls r.trace).filter (fun c => c.2)).length : Int) ∧
  r.readErrors + r.exportErrors + r.exportCounter = num

/-- A helper none of whose methods has undefined behaviour on any input. -/
def FormatHelper.Defined {σ : Type} (helper : FormatHelper σ) : Prop :=
  (∀ env, (helper.open_ env).isSome) ∧ (∀ env, (helper.prepare env).isSome) ∧
  (∀ num msg buf env, (helper.readMsg num msg buf env).isSome) ∧
  (∀ msg buf env, (helper.decodeMsg msg buf env).isSome) ∧
  (∀ num msg buf env, (helper.exportMsg num msg buf env).isSome) ∧
  (∀ env, (helper.finish env).isSome)

/-- The observer was started with `size`: the dialog observer holds it in
`_size`. -/
def ProgressHandler.StartedWith (p : ProgressHandler) (size : Int) : Prop :=
  match p with
  | ProgressHandler.dialog h => h._size = size
  | ProgressHandler.silent => True

/-- A store of three records; the filter passes records 0 and 2. -/
def exStore : QDltFile where
  size := 3
  sizeFilter := 2
  getMsg := fun i => if i = 0 then [68, 1] else if i = 1 then [68, 2] else if i = 2 then [68, 3] else []
  getMsgFilter := fun i => if i = 0 then [68, 1] else if i = 1 then [68, 3] else []
  getMsgFilterPos := fun i => if i = 0 then 0 else if i = 1 then 2 else -1

/-- A context over `exStore` with the given scope and selection list. -/
def exCtx (scope : DltExportSelection) (sel : Option (List QModelIndex)) : ExportContext where
  to_ := some { openable := true, isOpen := false, content := [] }
  from_ := exStore
  selection := sel
  selectedRows := []
  exportSelection := scope
  reporter := []
  silent_mode := false

/-- A parser that rejects the buffer of record 1 and accepts the others,
and a decoder that leaves the record as it is. -/
def exLib : QDlt where
  setMsg := fun msg buf => (decide (buf ≠ [68, 2]), msg)
  decodeMsg := fun msg _ => msg

/-- The environment of a run over `exStore` with scope All. -/
def exEnvAll : Env Unit := { ctx := exCtx SelectionAll none, self := () }

/-- The environment `start` leaves for the raw helper on `exEnvAll`. -/
def exEnvAllStarted : Env Unit :=
  { ctx := { exCtx SelectionAll none with
             to_ := some { openable := true, isOpen := true, content := [] } },
    self := () }

/-- The raw export of `exStore` with scope All: records 0 and 2 are written,
the read of record 1 fails. -/
def exRunAll : Run Unit :=
  (DltExporterImpl.exportMessages (DltFormatHelper Unit exLib) exEnvAll).get (by rfl)

/-- A run over `exStore` whose sink cannot be opened. -/
def exEnvUnopenable : Env Unit :=
  { ctx := { exCtx SelectionAll none with
             to_ := some { openable := false, isOpen := false, content := [] } },
    self := () }

/-- The environment the failed `open` leaves: the error has been reported. -/
def exEnvUnopenableReported : Env Unit :=
  { ctx := { exCtx SelectionAll none with
             to_ := some { openable := false, isOpen := false, content := [] },
             reporter := ["Cannot open the export file.".toList] },
    self := () }

/-- The run of the raw helper on `exEnvUnopenable`. -/
def exRunUnopenable : Run Unit :=
  (DltExporterImpl.exportMessages (DltFormatHelper Unit exLib) exEnvUnopenable).get (by rfl)

/-- A helper whose `prepare` fails: the raw helper otherwise. -/
def exPrepareFails : FormatHelper Unit :=
  { DltFormatHelper Unit exLib with prepare := fun env => some (false, env) }

/-- Thirteen field values, some with quotes, commas and a line feed. -/
def exFields : List QString :=
  ["7".toList, "2024/01/01 10:00:00.000042".toList, "123.4567".toList, "0".toList,
   "ECU1".toList, "APP".toList, "CTX".toList, "12".toList, "log".toList, "info".toList,
   "verbose".toList, "2".toList, "he said \"hi\", then\nleft".toList]

/-- A context over `exStore` with scope Filtered and an open sink. -/
def exEnvFiltered : Env Unit :=
  { ctx := { exCtx SelectionFiltered none with
             to_ := some { openable := true, isOpen := true, content := [] } },
    self := () }

/-- A decoded record with header `H` and payload `a  b`. -/
def exMsg : QDltMsg :=
  { (default : QDltMsg) with stringHeader := "H".toList, stringPayload := " a  b ".toList }

/-- A parser that accepts every buffer and a decoder that leaves the record
as it is. -/
def exLibAll : QDlt where
  setMsg := fun msg _ => (true, msg)
  decodeMsg := fun msg _ => msg

/-- Thirteen column names for the CSV header. -/
def exNames : List QString :=
  ["Index".toList, "Time".toList, "Timestamp".toList, "Count".toList, "Ecuid".toList,
   "Apid".toList, "Ctid".toList, "SessionId".toList, "Type".toList, "Subtype".toList,
   "Mode".toList, "Args".toList, "Payload".toList]

/-! ## Selection: size and translation -/

theorem qlistAt_of_lt (l : List Int) (i : Int) (h0 : 0 ≤ i) (h1 : i < (l.length : Int)) :
    ∃ row, l[i.toNat]? = some row ∧ qlistAt l i = some row := by
  have hlt : i.toNat < l.length := by omega
  exact ⟨l[i.toNat], List.getElem?_eq_getElem hlt, by simp [qlistAt, h0, List.getElem?_eq_getElem hlt]⟩

/-- C1: `SelectionHelper::size` and `SelectionHelper::selection` follow the
scope. All: the store size and the identity. Filtered: the filtered count and
the filtered-position lookup. Selected: the number of selected rows and, for a
position inside `[0, total)`, the filtered-position lookup of the row stored at
that position. Any other scope value: -1 and -1. -/
theorem C1_size_selection_by_scope (ctx : ExportContext) (i : Int) :
    (ctx.exportSelection = SelectionAll →
      SelectionHelper.size ctx = ctx.from_.size ∧ SelectionHelper.selection ctx i = some i) ∧
    (ctx.exportSelection = SelectionFiltered →
      SelectionHelper.size ctx = ctx.from_.sizeFilter ∧
      SelectionHelper.selection ctx i = some (ctx.from_.getMsgFilterPos i)) ∧
    (ctx.exportSelection = SelectionSelected →
      SelectionHelper.size ctx = (ctx.selectedRows.length : Int) ∧
      (0 ≤ i → i < SelectionHelper.size ctx →
        ∃ row, ctx.selectedRows[i.toNat]? = some row ∧
          SelectionHelper.selection ctx i = some (ctx.from_.getMsgFilterPos row))) ∧
    (ctx.exportSelection ≠ SelectionAll → ctx.exportSelection ≠ SelectionFiltered →
      ctx.exportSelection ≠ SelectionSelected →
      SelectionHelper.size ctx = -1 ∧ SelectionHelper.selection ctx i = some (-1)) := by
  refine ⟨?_, ?_, ?_, ?_⟩
  · intro h
    simp [SelectionHelper.size, SelectionHelper.selection, h]
  · intro h
    simp [SelectionHelper.size, SelectionHelper.selection, h, SelectionAll, SelectionFiltered]
  · intro h
    have hsz : SelectionHelper.size ctx = (ctx.selectedRows.length : Int) := by
      simp [SelectionHelper.size, h, SelectionAll, SelectionFiltered, SelectionSelected]
    refine ⟨hsz, ?_⟩
    intro h0 h1
    rw [hsz] at h1
    obtain ⟨row, hr, hq⟩ := qlistAt_of_lt ctx.selectedRows i h0 h1
    refine ⟨row, hr, ?_⟩
    simp [SelectionHelper.selection, h, SelectionAll, SelectionFiltered, SelectionSelected, hq]
  · intro ha hf hs
    simp [SelectionHelper.size, SelectionHelper.selection, ha, hf, hs]

/-- C1 witness: scope Selected over `exStore` with rows `[0, 1]`, position 1. -/
theorem C1_size_selection_by_scope_witness :
    SelectionHelper.size { exCtx SelectionSelected none with selectedRows := [0, 1] } = 2 ∧
    ∃ row, ([0, 1] : List Int)[(1 : Int).toNat]? = some row ∧
      SelectionHelper.selection { exCtx SelectionSelected none with selectedRows := [0, 1] } 1
        = some (exStore.getMsgFilterPos row) :=
  ⟨((C1_size_selection_by_scope
      { exCtx SelectionSelected none with selectedRows := [0, 1] } 1).2.2.1 rfl).1,
   ((C1_size_selection_by_scope
      { exCtx SelectionSelected none with selectedRows := [0, 1] } 1).2.2.1 rfl).2
      (by decide) (by decide)⟩

/-! ## Selection: normalization -/

theorem QModelIndex.le_total (a b : QModelIndex) : QModelIndex.le a b ∨ QModelIndex.le b a := by
  unfold QModelIndex.le QModelIndex.lt; omega

theorem QModelIndex.le_trans (a b c : QModelIndex) (hab : QModelIndex.le a b)
    (hbc : QModelIndex.le b c) : QModelIndex.le a c := by
  unfold QModelIndex.le QModelIndex.lt at *; omega

theorem QModelIndex.le_antisymm (a b : QModelIndex) (hab : QModelIndex.le a b)
    (hba : QModelIndex.le b a) : a = b := by
  unfold QModelIndex.le QModelIndex.lt at *
  cases a; cases b
  simp only [QModelIndex.mk.injEq] at *
  omega

theorem QModelIndex.row_le_of_le (a b : QModelIndex) (hab : QModelIndex.le a b) :
    a.row ≤ b.row := by
  unfold QModelIndex.le QModelIndex.lt at hab; omega

theorem stdSort_sorted (l : List QModelIndex) : List.Sorted QModelIndex.le (stdSort l) :=
  haveI : IsTotal QModelIndex QModelIndex.le := ⟨QModelIndex.le_total⟩
  haveI : IsTrans QModelIndex QModelIndex.le := ⟨QModelIndex.le_trans⟩
  List.sorted_insertionSort QModelIndex.le l

theorem stdSort_perm (l : List QModelIndex) : (stdSort l).Perm l :=
  List.perm_insertionSort QModelIndex.le l

/-- Whatever algorithm `std::sort` runs, its result (an ascending permutation
of the input) is the list `stdSort` computes. -/
theorem stdSort_unique (l l' : List QModelIndex) (hp : l'.Perm l)
    (hs : List.Sorted QModelIndex.le l') : l' = stdSort l :=
  haveI : IsAntisymm QModelIndex QModelIndex.le := ⟨QModelIndex.le_antisymm⟩
  List.eq_of_perm_of_sorted (hp.trans (stdSort_perm l).symm) hs (stdSort_sorted l)

theorem stdSort_rows_sorted (l : List QModelIndex) :
    List.Sorted (fun a b : Int => a ≤ b) ((stdSort l).map QModelIndex.row) :=
  List.Pairwise.map QModelIndex.row QModelIndex.row_le_of_le (stdSort_sorted l)

theorem prepare_selectedRows (ctx : ExportContext) (sel : List QModelIndex)
    (hscope : ctx.exportSelection = SelectionSelected) (hsel : ctx.selection = some sel) :
    (SelectionHelper.prepare ctx).selectedRows = (stdSort sel).map QModelIndex.row := by
  simp [SelectionHelper.prepare, hscope, hsel]

/-- C2, as the code has it: for scope Selected and a selection list `sel`
handed over in any order, after `SelectionHelper::prepare` the selected rows
are a rearrangement of the rows of `sel` in non-decreasing order
(`selectedRows[k] ≤ selectedRows[k+1]` for every adjacent pair); they are
strictly ascending exactly when no two indices of `sel` share a row. -/
theorem C2_prepare_rows_ascending (ctx : ExportContext) (sel : List QModelIndex)
    (hscope : ctx.exportSelection = SelectionSelected) (hsel : ctx.selection = some sel) :
    (SelectionHelper.prepare ctx).selectedRows.Perm (sel.map QModelIndex.row) ∧
    List.Chain' (fun a b : Int => a ≤ b) (SelectionHelper.prepare ctx).selectedRows ∧
    (List.Chain' (fun a b : Int => a < b) (SelectionHelper.prepare ctx).selectedRows ↔
      (sel.map QModelIndex.row).Nodup) := by
  rw [prepare_selectedRows ctx sel hscope hsel]
  have hperm : ((stdSort sel).map QModelIndex.row).Perm (sel.map QModelIndex.row) :=
    (stdSort_perm sel).map QModelIndex.row
  have hsorted := stdSort_rows_sorted sel
  refine ⟨hperm, List.chain'_iff_pairwise.mpr hsorted, ?_⟩
  rw [List.chain'_iff_pairwise]
  constructor
  · intro hlt
    exact hperm.nodup_iff.mp (List.Sorted.nodup hlt)
  · intro hnd
    exact List.Sorted.lt_of_le hsorted (hperm.nodup_iff.mpr hnd)

/-- C2 witness: the rows `[2, 0]` of the spec's example scenario. -/
theorem C2_prepare_rows_ascending_witness :
    (SelectionHelper.prepare
      (exCtx SelectionSelected (some [⟨2, 0, 0, 0⟩, ⟨0, 0, 0, 0⟩]))).selectedRows.Perm
      (([⟨2, 0, 0, 0⟩, ⟨0, 0, 0, 0⟩] : List QModelIndex).map QModelIndex.row) ∧
    List.Chain' (fun a b : Int => a ≤ b) (SelectionHelper.prepare
      (exCtx SelectionSelected (some [⟨2, 0, 0, 0⟩, ⟨0, 0, 0, 0⟩]))).selectedRows ∧
    (List.Chain' (fun a b : Int => a < b) (SelectionHelper.prepare
      (exCtx SelectionSelected (some [⟨2, 0, 0, 0⟩, ⟨0, 0, 0, 0⟩]))).selectedRows ↔
      (([⟨2, 0, 0, 0⟩, ⟨0, 0, 0, 0⟩] : List QModelIndex).map QModelIndex.row).Nodup) :=
  C2_prepare_rows_ascending (exCtx SelectionSelected (some [⟨2, 0, 0, 0⟩, ⟨0, 0, 0, 0⟩]))
    [⟨2, 0, 0, 0⟩, ⟨0, 0, 0, 0⟩] rfl rfl

/-- C2 counterexample: a selection holding two cells of row 1 (columns 0 and
1) leaves `selectedRows = [1, 1]`, which is not strictly ascending. -/
theorem C2_duplicate_rows_counterexample :
    (SelectionHelper.prepare
      (exCtx SelectionSelected (some [⟨1, 1, 0, 0⟩, ⟨1, 0, 0, 0⟩]))).selectedRows = [1, 1] ∧
    ¬ List.Chain' (fun a b : Int => a < b) (SelectionHelper.prepare
      (exCtx SelectionSelected (some [⟨1, 1, 0, 0⟩, ⟨1, 0, 0, 0⟩]))).selectedRows := by
  have hrows : (SelectionHelper.prepare
      (exCtx SelectionSelected (some [⟨1, 1, 0, 0⟩, ⟨1, 0, 0, 0⟩]))).selectedRows = [1, 1] := by
    decide
  rw [hrows]
  exact ⟨rfl, by simp⟩

/-! ## The driver loop -/

theorem readCalls_append (t u : List Call) : readCalls (t ++ u) = readCalls t ++ readCalls u := by
  simp [readCalls]

theorem exportCalls_append (t u : List Call) :
    exportCalls (t ++ u) = exportCalls t ++ exportCalls u := by
  simp [exportCalls]

theorem decodeCalls_append (t u : List Call) :
    decodeCalls (t ++ u) = decodeCalls t ++ decodeCalls u := by
  simp [decodeCalls]

/-- What one iteration that returns has done: the observer was updated, the
record was read, and either the read failed, or the record was decoded and
its export failed, or it was decoded and exported. -/
theorem loopBody_some {σ : Type} (helper : FormatHelper σ) (num : Int) (r r' : Run σ)
    (h : DltExporterImpl.loopBody helper num r = some r') :
    ∃ progress, r.progress.update num = some progress ∧
      ((∃ msg buf env, helper.readMsg num r.msg r.buf r.env = some (false, msg, buf, env) ∧
          r' = { r with env := env, msg := msg, buf := buf, progress := progress,
                        readErrors := r.readErrors + 1,
                        trace := r.trace ++ [Call.progressUpdate num, Call.readMsg num false] }) ∨
       (∃ msg buf env msg1 buf1 env1 ok msg2 buf2 env2,
          helper.readMsg num r.msg r.buf r.env = some (true, msg, buf, env) ∧
          helper.decodeMsg msg buf env = some (msg1, buf1, env1) ∧
          helper.exportMsg num msg1 buf1 env1 = some (ok, msg2, buf2, env2) ∧
          r' = { r with env := env2, msg := msg2, buf := buf2, progress := progress,
                        exportErrors := if ok then r.exportErrors else r.exportErrors + 1,
                        exportCounter := if ok then r.exportCounter + 1 else r.exportCounter,
                        trace := r.trace ++ [Call.progressUpdate num, Call.readMsg num true,
                          Call.decodeMsg num, Call.exportMsg num ok] })) := by
  unfold DltExporterImpl.loopBody at h
  split at h
  · exact absurd h (by simp)
  · rename_i progress hp
    refine ⟨progress, hp, ?_⟩
    split at h
    · exact absurd h (by simp)
    · rename_i msg buf env hr
      left
      exact ⟨msg, buf, env, hr, (Option.some.inj h).symm⟩
    · rename_i msg buf env hr
      right
      split at h
      · exact absurd h (by simp)
      · rename_i msg1 buf1 env1 hd
        split at h
        · exact absurd h (by simp)
        · rename_i msg2 buf2 env2 he
          exact ⟨msg, buf, env, msg1, buf1, env1, false, msg2, buf2, env2, hr, hd, he,
            (Option.some.inj h).symm⟩
        · rename_i msg2 buf2 env2 he
          exact ⟨msg, buf, env, msg1, buf1, env1, true, msg2, buf2, env2, hr, hd, he,
            (Option.some.inj h).symm⟩

/-- Induction over the loop: a property that every returning iteration carries
from `num` to `num + 1` holds at the end of a returning loop, at the position
where the loop stops. -/
theorem exportLoop_induct {σ : Type} (helper : FormatHelper σ) (size : Int)
    (P : Int → Run σ → Prop)
    (hstep : ∀ num r r', 0 ≤ num → num < size → P num r →
      DltExporterImpl.loopBody helper num r = some r' → P (num + 1) r') :
    ∀ (fuel : Nat) (num : Int) (r r' : Run σ), 0 ≤ num → (size - num).toNat ≤ fuel → P num r →
      DltExporterImpl.exportLoop helper size fuel num r = some r' → P (max num size) r' := by
  intro fuel
  induction fuel with
  | zero =>
    intro num r r' _ hfuel hP h
    simp only [DltExporterImpl.exportLoop, Option.some.injEq] at h
    subst h
    have : max num size = num := by omega
    rw [this]; exact hP
  | succ fuel ih =>
    intro num r r' h0 hfuel hP h
    unfold DltExporterImpl.exportLoop at h
    by_cases hlt : num < size
    · rw [if_pos hlt] at h
      split at h
      · exact absurd h (by simp)
      · rename_i r1 hb
        have := ih (num + 1) r1 r' (by omega) (by omega) (hstep num r r1 h0 hlt hP hb) h
        have hm : max (num + 1) size = max num size := by omega
        rw [hm] at this; exact this
    · rw [if_neg hlt] at h
      simp only [Option.some.injEq] at h
      subst h
      have : max num size = num := by omega
      rw [this]; exact hP

/-- The loop returns when every iteration does: a property that makes the
iteration at `num` return and holds again at `num + 1` carries the loop to its
end. -/
theorem exportLoop_total {σ : Type} (helper : FormatHelper σ) (size : Int)
    (P : Int → Run σ → Prop)
    (hstep : ∀ num r, 0 ≤ num → num < size → P num r →
      ∃ r', DltExporterImpl.loopBody helper num r = some r' ∧ P (num + 1) r') :
    ∀ (fuel : Nat) (num : Int) (r : Run σ), 0 ≤ num → (size - num).toNat ≤ fuel → P num r →
      ∃ r', DltExporterImpl.exportLoop helper size fuel num r = some r' ∧
        P (max num size) r' := by
  intro fuel
  induction fuel with
  | zero =>
    intro num r _ hfuel hP
    have : max num size = num := by omega
    exact ⟨r, rfl, by rw [this]; exact hP⟩
  | succ fuel ih =>
    intro num r h0 hfuel hP
    unfold DltExporterImpl.exportLoop
    by_cases hlt : num < size
    · rw [if_pos hlt]
      obtain ⟨r1, hb, hP1⟩ := hstep num r h0 hlt hP
      rw [hb]
      obtain ⟨r', hr', hP'⟩ := ih (num + 1) r1 (by omega) (by omega) hP1
      have hm : max (num + 1) size = max num size := by omega
      exact ⟨r', hr', by rw [← hm]; exact hP'⟩
    · rw [if_neg hlt]
      have : max num size = num := by omega
      exact ⟨r, rfl, by rw [this]; exact hP⟩

/-- The fuel `exportMessages` passes is never what stops the loop: any fuel
of at least `size - num` gives the same result. -/
theorem exportLoop_fuel {σ : Type} (helper : FormatHelper σ) (size : Int) :
    ∀ (fuel fuel' : Nat) (num : Int) (r : Run σ), (size - num).toNat ≤ fuel →
      (size - num).toNat ≤ fuel' →
      DltExporterImpl.exportLoop helper size fuel num r =
        DltExporterImpl.exportLoop helper size fuel' num r := by
  intro fuel
  induction fuel with
  | zero =>
    intro fuel' num r h _
    have hge : ¬ num < size := by omega
    cases fuel' with
    | zero => rfl
    | succ f => simp [DltExporterImpl.exportLoop, hge]
  | succ fuel ih =>
    intro fuel' num r h h'
    by_cases hlt : num < size
    · cases fuel' with
      | zero => omega
      | succ f =>
        simp only [DltExporterImpl.exportLoop, if_pos hlt]
        cases DltExporterImpl.loopBody helper num r with
        | none => rfl
        | some r1 => exact ih f (num + 1) r1 (by omega) (by omega)
    · cases fuel' with
      | zero => simp [DltExporterImpl.exportLoop, hlt]
      | succ f => simp [DltExporterImpl.exportLoop, hlt]

theorem positions_succ (num : Int) (h : 0 ≤ num) : positions (num + 1) = positions num ++ [num] := by
  have ht : (num + 1).toNat = num.toNat + 1 := by omega
  simp [positions, ht, List.range_succ, Int.toNat_of_nonneg h]

/-- One returning iteration keeps the counters in step with the calls. -/
theorem loopBody_tallied {σ : Type} (helper : FormatHelper σ) (num : Int) (r r' : Run σ)
    (h0 : 0 ≤ num) (hT : Tallied num r)
    (h : DltExporterImpl.loopBody helper num r = some r') : Tallied (num + 1) r' := by
  obtain ⟨hpos, hexp, hdec, hre, hee, hec, hsum⟩ := hT
  obtain ⟨progress, _, hcase⟩ := loopBody_some helper num r r' h
  rcases hcase with ⟨msg, buf, env, _, rfl⟩ |
    ⟨msg, buf, env, msg1, buf1, env1, ok, msg2, buf2, env2, _, _, _, rfl⟩
  · have e1 : readCalls [Call.progressUpdate num, Call.readMsg num false] = [(num, false)] := rfl
    have e2 : exportCalls [Call.progressUpdate num, Call.readMsg num false] = [] := rfl
    have e3 : decodeCalls [Call.progressUpdate num, Call.readMsg num false] = [] := rfl
    refine ⟨?_, ?_, ?_, ?_, ?_, ?_, ?_⟩
    · simp [readCalls_append, e1, hpos, positions_succ num h0]
    · simp [readCalls_append, exportCalls_append, e1, e2, hexp]
    · simp [decodeCalls_append, exportCalls_append, e2, e3, hdec]
    · simp [readCalls_append, e1, hre]
    · simp [exportCalls_append, e2, hee]
    · simp [exportCalls_append, e2, hec]
    · simp only []; omega
  · have e1 : readCalls [Call.progressUpdate num, Call.readMsg num true, Call.decodeMsg num,
        Call.exportMsg num ok] = [(num, true)] := rfl
    have e2 : exportCalls [Call.progressUpdate num, Call.readMsg num true, Call.decodeMsg num,
        Call.exportMsg num ok] = [(num, ok)] := rfl
    have e3 : decodeCalls [Call.progressUpdate num, Call.readMsg num true, Call.decodeMsg num,
        Call.exportMsg num ok] = [num] := rfl
    refine ⟨?_, ?_, ?_, ?_, ?_, ?_, ?_⟩
    · simp [readCalls_append, e1, hpos, positions_succ num h0]
    · simp [readCalls_append, exportCalls_append, e1, e2, hexp]
    · simp [decodeCalls_append, exportCalls_append, e2, e3, hdec]
    · simp [readCalls_append, e1, hre]
    · cases ok <;> simp [exportCalls_append, e2, hee]
    · cases ok <;> simp [exportCalls_append, e2, hec]
    · cases ok
      · simp only [Bool.false_eq_true, if_false]; omega
      · simp only [if_true]; omega

/-- A successful `start` made exactly the calls `open` and `prepare`, both
returning true. -/
theorem start_true {σ : Type} (helper : FormatHelper σ) (env env1 : Env σ) (calls : List Call)
    (h : DltExporterImpl.start helper env = some (true, env1, calls)) :
    calls = [Call.open_ true, Call.prepare true] ∧
    ∃ env0, helper.open_ { env with ctx := SelectionHelper.prepare env.ctx } = some (true, env0) ∧
      helper.prepare env0 = some (true, env1) := by
  unfold DltExporterImpl.start at h
  split at h
  · exact absurd h (by simp)
  · simp at h
  · rename_i env0 ho
    split at h
    · exact absurd h (by simp)
    · rename_i ok env2 hp
      simp only [Option.some.injEq, Prod.mk.injEq] at h
      obtain ⟨rfl, rfl, rfl⟩ := h
      exact ⟨rfl, env0, ho, hp⟩

/-- A returning run that started is the loop from position 0, then `done`,
`finish` and the report. -/
theorem exportMessages_started {σ : Type} (helper : FormatHelper σ) (env env1 : Env σ)
    (calls : List Call) (r : Run σ)
    (hstart : DltExporterImpl.start helper env = some (true, env1, calls))
    (hrun : DltExporterImpl.exportMessages helper env = some r) :
    ∃ r2 ok env2,
      DltExporterImpl.exportLoop helper (SelectionHelper.size env1.ctx)
        (SelectionHelper.size env1.ctx).toNat 0 (DltExporterImpl.loopStart env env1 calls)
        = some r2 ∧
      helper.finish r2.env = some (ok, env2) ∧
      r = DltExporterImpl.report (SelectionHelper.size env1.ctx)
        { r2 with env := env2, progress := r2.progress.done,
                  startFinishError := if ok then r2.startFinishError
                                      else r2.startFinishError + 1,
                  trace := r2.trace ++ [Call.progressDone, Call.finish ok] } := by
  unfold DltExporterImpl.exportMessages at hrun
  rw [hstart] at hrun
  simp only at hrun
  split at hrun
  · exact absurd hrun (by simp)
  · rename_i r2 hl
    split at hrun
    · exact absurd hrun (by simp)
    · rename_i ok env2 hf
      exact ⟨r2, ok, env2, hl, hf, (Option.some.inj hrun).symm⟩

theorem report_fields {σ : Type} (size : Int) (r : Run σ) :
    (DltExporterImpl.report size r).trace = r.trace ∧
    (DltExporterImpl.report size r).env = r.env ∧
    (DltExporterImpl.report size r).progress = r.progress ∧
    (DltExporterImpl.report size r).readErrors = r.readErrors ∧
    (DltExporterImpl.report size r).exportErrors = r.exportErrors ∧
    (DltExporterImpl.report size r).exportCounter = r.exportCounter ∧
    (DltExporterImpl.report size r).startFinishError = r.startFinishError := by
  unfold DltExporterImpl.report
  split <;> simp

/-- The loop of a run that started, from its start to its end: the counters
agree with the calls, no lifecycle failure is counted and no summary shown. -/
theorem exportLoop_tallied {σ : Type} (helper : FormatHelper σ) (env env1 : Env σ)
    (calls : List Call) (r2 : Run σ)
    (hcalls : calls = [Call.open_ true, Call.prepare true])
    (hloop : DltExporterImpl.exportLoop helper (SelectionHelper.size env1.ctx)
        (SelectionHelper.size env1.ctx).toNat 0 (DltExporterImpl.loopStart env env1 calls)
        = some r2) :
    Tallied (max 0 (SelectionHelper.size env1.ctx)) r2 ∧
    r2.startFinishError = 0 ∧ r2.summary = none := by
  have h0 : Tallied 0 (DltExporterImpl.loopStart env env1 calls) ∧
      (DltExporterImpl.loopStart env env1 calls).startFinishError = 0 ∧
      (DltExporterImpl.loopStart env env1 calls).summary = none := by
    subst hcalls
    simp [Tallied, DltExporterImpl.loopStart, readCalls, exportCalls, decodeCalls, positions]
  exact exportLoop_induct helper (SelectionHelper.size env1.ctx)
    (fun n r => Tallied n r ∧ r.startFinishError = 0 ∧ r.summary = none)
    (fun num r r' hn _ hT hb => by
      refine ⟨loopBody_tallied helper num r r' hn hT.1 hb, ?_⟩
      obtain ⟨progress, _, hcase⟩ := loopBody_some helper num r r' hb
      rcases hcase with ⟨_, _, _, _, rfl⟩ | ⟨_, _, _, _, _, _, _, _, _, _, _, _, _, rfl⟩
      · exact hT.2
      · exact hT.2)
    (SelectionHelper.size env1.ctx).toNat 0 _ r2 (le_refl 0) (by omega) h0 hloop

theorem Tallied.nonneg {σ : Type} (num : Int) (r : Run σ) (h : Tallied num r) :
    0 ≤ r.readErrors ∧ 0 ≤ r.exportErrors ∧ 0 ≤ r.exportCounter := by
  obtain ⟨_, _, _, hre, hee, hec, _⟩ := h
  rw [hre, hee, hec]
  exact ⟨Int.ofNat_nonneg _, Int.ofNat_nonneg _, Int.ofNat_nonneg _⟩

theorem ProgressHandler.startedWith_start (p : ProgressHandler) (size : Int) :
    (p.start size).StartedWith size := by
  cases p <;> simp [ProgressHandler.start, ProgressHandler.StartedWith, DialogProgressHandler.start]

/-- An observer started with a size other than 0 accepts every update and
keeps the size. -/
theorem ProgressHandler.update_startedWith (p : ProgressHandler) (size count : Int)
    (hp : p.StartedWith size) (hsize : size ≠ 0) :
    ∃ p', p.update count = some p' ∧ p'.StartedWith size := by
  cases p with
  | silent => exact ⟨ProgressHandler.silent, rfl, trivial⟩
  | dialog h =>
    simp only [ProgressHandler.StartedWith] at hp
    simp only [ProgressHandler.update, DialogProgressHandler.update]
    cases hd : h._dialog with
    | none => exact ⟨ProgressHandler.dialog h, rfl, hp⟩
    | some d =>
      have hne : ¬ h._size = 0 := by rw [hp]; exact hsize
      simp only [hne, if_false]
      split
      · exact ⟨ProgressHandler.dialog _, rfl, hp⟩
      · exact ⟨ProgressHandler.dialog h, rfl, hp⟩

/-- An iteration returns when the observer accepts the update and the helper
methods it calls return. -/
theorem loopBody_returns {σ : Type} (helper : FormatHelper σ) (hdef : helper.Defined)
    (num : Int) (r : Run σ) (progress : ProgressHandler)
    (hp : r.progress.update num = some progress) :
    ∃ r', DltExporterImpl.loopBody helper num r = some r' ∧ r'.progress = progress := by
  obtain ⟨_, _, hread, hdec, hexp, _⟩ := hdef
  unfold DltExporterImpl.loopBody
  rw [hp]
  obtain ⟨⟨okr, msg, buf, env⟩, hr⟩ := Option.isSome_iff_exists.mp (hread num r.msg r.buf r.env)
  rw [hr]
  cases okr with
  | false => exact ⟨_, rfl, rfl⟩
  | true =>
    obtain ⟨⟨msg1, buf1, env1⟩, hd⟩ := Option.isSome_iff_exists.mp (hdec msg buf env)
    obtain ⟨⟨oke, msg2, buf2, env2⟩, he⟩ :=
      Option.isSome_iff_exists.mp (hexp num msg1 buf1 env1)
    simp only [hd, he]
    cases oke <;> exact ⟨_, rfl, rfl⟩

/-- A run over a helper without undefined behaviour returns. -/
theorem exportMessages_returns {σ : Type} (helper : FormatHelper σ) (hdef : helper.Defined)
    (env : Env σ) : ∃ r, DltExporterImpl.exportMessages helper env = some r := by
  have hdef' := hdef
  obtain ⟨hopen, hprep, _, _, _, hfin⟩ := hdef'
  obtain ⟨⟨oko, env0⟩, ho⟩ :=
    Option.isSome_iff_exists.mp (hopen { env with ctx := SelectionHelper.prepare env.ctx })
  obtain ⟨⟨okp, env1⟩, hpr⟩ := Option.isSome_iff_exists.mp (hprep env0)
  cases oko with
  | false =>
    simp only [DltExporterImpl.exportMessages, DltExporterImpl.start, ho]
    exact ⟨_, rfl⟩
  | true =>
    cases okp with
    | false =>
      simp only [DltExporterImpl.exportMessages, DltExporterImpl.start, ho, hpr]
      exact ⟨_, rfl⟩
    | true =>
      have hstart : DltExporterImpl.start helper env
          = some (true, env1, [Call.open_ true, Call.prepare true]) := by
        simp [DltExporterImpl.start, ho, hpr]
      obtain ⟨r2, hloop, _⟩ := exportLoop_total helper (SelectionHelper.size env1.ctx)
        (fun _ r => r.progress.StartedWith (SelectionHelper.size env1.ctx))
        (fun num r h0 hlt hP => by
          obtain ⟨p', hp', hs'⟩ := ProgressHandler.update_startedWith r.progress
            (SelectionHelper.size env1.ctx) num hP (by omega)
          obtain ⟨r', hr', hpr'⟩ := loopBody_returns helper hdef num r p' hp'
          refine ⟨r', hr', ?_⟩
          show r'.progress.StartedWith (SelectionHelper.size env1.ctx)
          rw [hpr']
          exact hs')
        (SelectionHelper.size env1.ctx).toNat 0
        (DltExporterImpl.loopStart env env1 [Call.open_ true, Call.prepare true])
        (le_refl 0) (by omega)
        (ProgressHandler.startedWith_start _ _)
      obtain ⟨⟨okf, env2⟩, hf⟩ := Option.isSome_iff_exists.mp (hfin r2.env)
      simp only [DltExporterImpl.exportMessages, hstart, hloop, hf]
      exact ⟨_, rfl⟩

/-- C3: in a run in which `open` and `prepare` succeed and `total =
SelectionHelper::size` is not negative, the driver calls `readMsg` once for
each position `0 .. total - 1` in ascending order and `exportMsg` exactly at
the positions whose read succeeded; at the end the read-failure counter is the
number of failed reads, the export-failure counter the number of failed
exports, the success counter the number of successful exports, and the three
add up to `total`. If every read fails, the success counter is 0 and the
read-failure counter is `total`; if `total = 0`, all three are 0. -/
theorem C3_loop_tallies {σ : Type} (helper : FormatHelper σ) (env env1 : Env σ)
    (calls : List Call)
    (hstart : DltExporterImpl.start helper env = some (true, env1, calls))
    (hsize : 0 ≤ SelectionHelper.size env1.ctx) :
    (helper.Defined → ∃ r, DltExporterImpl.exportMessages helper env = some r) ∧
    ∀ r, DltExporterImpl.exportMessages helper env = some r →
      (readCalls r.trace).map Prod.fst = positions (SelectionHelper.size env1.ctx) ∧
      (exportCalls r.trace).map Prod.fst
        = ((readCalls r.trace).filter (fun c => c.2)).map Prod.fst ∧
      r.readErrors = (((readCalls r.trace).filter (fun c => !c.2)).length : Int) ∧
      r.exportErrors = (((exportCalls r.trace).filter (fun c => !c.2)).length : Int) ∧
      r.exportCounter = (((exportCalls r.trace).filter (fun c => c.2)).length : Int) ∧
      r.readErrors + r.exportErrors + r.exportCounter = SelectionHelper.size env1.ctx ∧
      ((∀ c ∈ readCalls r.trace, c.2 = false) →
        r.exportCounter = 0 ∧ r.readErrors = SelectionHelper.size env1.ctx) ∧
      (SelectionHelper.size env1.ctx = 0 →
        r.readErrors = 0 ∧ r.exportErrors = 0 ∧ r.exportCounter = 0) := by
  refine ⟨fun hdef => exportMessages_returns helper hdef env, ?_⟩
  intro r hrun
  obtain ⟨hcalls, _⟩ := start_true helper env env1 calls hstart
  obtain ⟨r2, ok, env2, hloop, _, rfl⟩ := exportMessages_started helper env env1 calls r hstart hrun
  have hT := (exportLoop_tallied helper env env1 calls r2 hcalls hloop).1
  rw [max_eq_right hsize] at hT
  obtain ⟨hpos, hexp, _, hre, hee, hec, hsum⟩ := hT
  obtain ⟨ht, _, _, hr1, hr2, hr3, _⟩ := report_fields (SelectionHelper.size env1.ctx)
    { r2 with env := env2, progress := r2.progress.done,
              startFinishError := if ok then r2.startFinishError else r2.startFinishError + 1,
              trace := r2.trace ++ [Call.progressDone, Call.finish ok] }
  have er : readCalls (r2.trace ++ [Call.progressDone, Call.finish ok]) = readCalls r2.trace := by
    rw [readCalls_append]; simp [readCalls]
  have ee : exportCalls (r2.trace ++ [Call.progressDone, Call.finish ok])
      = exportCalls r2.trace := by
    rw [exportCalls_append]; simp [exportCalls]
  rw [ht, hr1, hr2, hr3]
  simp only [er, ee]
  refine ⟨hpos, hexp, hre, hee, hec, hsum, ?_, ?_⟩
  · intro hall
    have hnone : (readCalls r2.trace).filter (fun c => c.2) = [] := by
      rw [List.filter_eq_nil_iff]
      intro c hc
      simp [hall c hc]
    have hexp0 : exportCalls r2.trace = [] := by
      rw [hnone] at hexp
      simpa using hexp
    rw [hexp0] at hee hec
    simp only [List.filter_nil, List.length_nil, Nat.cast_zero] at hee hec
    exact ⟨hec, by omega⟩
  · intro hz
    have hre0 : 0 ≤ r2.readErrors := by rw [hre]; exact Int.ofNat_nonneg _
    have hee0 : 0 ≤ r2.exportErrors := by rw [hee]; exact Int.ofNat_nonneg _
    have hec0 : 0 ≤ r2.exportCounter := by rw [hec]; exact Int.ofNat_nonneg _
    refine ⟨by omega, by omega, by omega⟩

/-- C3 witness: the raw export of the three records of `exStore`, of which
the second cannot be read. -/
theorem C3_loop_tallies_witness :
    DltExporterImpl.start (DltFormatHelper Unit exLib) exEnvAll
      = some (true, exEnvAllStarted, [Call.open_ true, Call.prepare true]) ∧
    0 ≤ SelectionHelper.size exEnvAllStarted.ctx ∧
    DltExporterImpl.exportMessages (DltFormatHelper Unit exLib) exEnvAll = some exRunAll ∧
    (readCalls exRunAll.trace).map Prod.fst = positions (SelectionHelper.size exEnvAllStarted.ctx) ∧
    (exportCalls exRunAll.trace).map Prod.fst
      = ((readCalls exRunAll.trace).filter (fun c => c.2)).map Prod.fst ∧
    exRunAll.readErrors = (((readCalls exRunAll.trace).filter (fun c => !c.2)).length : Int) ∧
    exRunAll.exportErrors = (((exportCalls exRunAll.trace).filter (fun c => !c.2)).length : Int) ∧
    exRunAll.exportCounter = (((exportCalls exRunAll.trace).filter (fun c => c.2)).length : Int) ∧
    exRunAll.readErrors + exRunAll.exportErrors + exRunAll.exportCounter
      = SelectionHelper.size exEnvAllStarted.ctx ∧
    ((∀ c ∈ readCalls exRunAll.trace, c.2 = false) →
      exRunAll.exportCounter = 0 ∧ exRunAll.readErrors = SelectionHelper.size exEnvAllStarted.ctx) ∧
    (SelectionHelper.size exEnvAllStarted.ctx = 0 →
      exRunAll.readErrors = 0 ∧ exRunAll.exportErrors = 0 ∧ exRunAll.exportCounter = 0) :=
  ⟨rfl, by decide, (Option.some_get _).symm,
    (C3_loop_tallies (DltFormatHelper Unit exLib) exEnvAll exEnvAllStarted
      [Call.open_ true, Call.prepare true] rfl (by decide)).2 exRunAll (Option.some_get _).symm⟩

/-! ## The driver: lifecycle failures and the summary -/

/-- A failed `start` is a failed `open`, or an `open` that succeeded followed
by a failed `prepare`. -/
theorem start_false {σ : Type} (helper : FormatHelper σ) (env env1 : Env σ) (calls : List Call)
    (h : DltExporterImpl.start helper env = some (false, env1, calls)) :
    (helper.open_ { env with ctx := SelectionHelper.prepare env.ctx } = some (false, env1) ∧
      calls = [Call.open_ false]) ∨
    (∃ env0, helper.open_ { env with ctx := SelectionHelper.prepare env.ctx } = some (true, env0) ∧
      helper.prepare env0 = some (false, env1) ∧
      calls = [Call.open_ true, Call.prepare false]) := by
  unfold DltExporterImpl.start at h
  split at h
  · exact absurd h (by simp)
  · rename_i env0 ho
    simp only [Option.some.injEq, Prod.mk.injEq, true_and] at h
    obtain ⟨rfl, rfl⟩ := h
    exact Or.inl ⟨ho, rfl⟩
  · rename_i env0 ho
    split at h
    · exact absurd h (by simp)
    · rename_i ok env2 hp
      simp only [Option.some.injEq, Prod.mk.injEq] at h
      obtain ⟨rfl, rfl, rfl⟩ := h
      exact Or.inr ⟨env0, ho, hp, rfl⟩

/-- The run after a failed `start`: it stops at once. -/
theorem exportMessages_not_started {σ : Type} (helper : FormatHelper σ) (env env1 : Env σ)
    (calls : List Call)
    (hstart : DltExporterImpl.start helper env = some (false, env1, calls)) :
    DltExporterImpl.exportMessages helper env =
      some { env := env1, msg := default, buf := [],
             progress := DltExporterImpl.newProgress env.ctx,
             readErrors := 0, exportErrors := 0, exportCounter := 0, startFinishError := 1,
             summary := none, trace := calls } := by
  unfold DltExporterImpl.exportMessages
  rw [hstart]

/-- C4, as the code has it: a run stopped by a failed `open` or `prepare`
ends with the lifecycle counter at 1 and shows no summary; in a run in which
both succeed the summary is shown if and only if at least one of the counters
of read failures, export failures and lifecycle failures is not zero at the
end, and it shows the success counter, the total and the three failure
counters. -/
theorem C4_summary_iff_failure_after_start {σ : Type} (helper : FormatHelper σ) (env : Env σ)
    (r : Run σ) (hrun : DltExporterImpl.exportMessages helper env = some r) :
    (∀ env1 calls, DltExporterImpl.start helper env = some (false, env1, calls) →
      r.summary = none ∧ r.startFinishError = 1 ∧ r.readErrors = 0 ∧ r.exportErrors = 0 ∧
      r.exportCounter = 0) ∧
    (∀ env1 calls, DltExporterImpl.start helper env = some (true, env1, calls) →
      (r.summary.isSome ↔
        (r.startFinishError ≠ 0 ∨ r.readErrors ≠ 0 ∨ r.exportErrors ≠ 0)) ∧
      (∀ s, r.summary = some s →
        s = { exportCounter := r.exportCounter, size := SelectionHelper.size env1.ctx,
              readErrors := r.readErrors, exportErrors := r.exportErrors,
              startFinishError := r.startFinishError })) := by
  constructor
  · intro env1 calls hstart
    rw [exportMessages_not_started helper env env1 calls hstart] at hrun
    obtain rfl := Option.some.inj hrun
    exact ⟨rfl, rfl, rfl, rfl, rfl⟩
  · intro env1 calls hstart
    obtain ⟨hcalls, _⟩ := start_true helper env env1 calls hstart
    obtain ⟨r2, ok, env2, hloop, _, rfl⟩ :=
      exportMessages_started helper env env1 calls r hstart hrun
    obtain ⟨hT, hsfe, hsum⟩ := exportLoop_tallied helper env env1 calls r2 hcalls hloop
    obtain ⟨hre0, hee0, _⟩ := Tallied.nonneg _ r2 hT
    unfold DltExporterImpl.report
    cases ok with
    | false =>
      simp only [hsfe, hsum, Bool.false_eq_true, if_false]
      split
      · simp
      · rename_i hno
        exact absurd (Or.inl (by decide)) hno
    | true =>
      simp only [hsfe, hsum, if_true]
      split
      · rename_i hyes
        refine ⟨?_, ?_⟩
        · simp only [Option.isSome_some, true_iff]
          rcases hyes with h | h | h
          · exact absurd h (by decide)
          · exact Or.inr (Or.inl (by omega))
          · exact Or.inr (Or.inr (by omega))
        · intro s hs
          exact (Option.some.inj hs).symm
      · rename_i hno
        refine ⟨?_, ?_⟩
        · simp only [Option.isSome_none, Bool.false_eq_true, false_iff, not_or, ne_eq,
            not_not, true_and]
          constructor
          · by_contra hne
            exact hno (Or.inr (Or.inl (by omega)))
          · by_contra hne
            exact hno (Or.inr (Or.inr (by omega)))
        · intro s hs
          exact absurd hs (by simp)

/-- C4 witness: the raw export of `exStore`, in which one read fails, shows
the summary 2 / 3 with one read failure; the run whose sink cannot be opened
shows none. -/
theorem C4_summary_iff_failure_after_start_witness :
    DltExporterImpl.exportMessages (DltFormatHelper Unit exLib) exEnvAll = some exRunAll ∧
    DltExporterImpl.start (DltFormatHelper Unit exLib) exEnvAll
      = some (true, exEnvAllStarted, [Call.open_ true, Call.prepare true]) ∧
    ((exRunAll.summary.isSome ↔
      (exRunAll.startFinishError ≠ 0 ∨ exRunAll.readErrors ≠ 0 ∨ exRunAll.exportErrors ≠ 0)) ∧
     (∀ s, exRunAll.summary = some s →
      s = { exportCounter := exRunAll.exportCounter,
            size := SelectionHelper.size exEnvAllStarted.ctx,
            readErrors := exRunAll.readErrors, exportErrors := exRunAll.exportErrors,
            startFinishError := exRunAll.startFinishError })) ∧
    DltExporterImpl.exportMessages (DltFormatHelper Unit exLib) exEnvUnopenable
      = some exRunUnopenable ∧
    DltExporterImpl.start (DltFormatHelper Unit exLib) exEnvUnopenable
      = some (false, exEnvUnopenableReported, [Call.open_ false]) ∧
    (exRunUnopenable.summary = none ∧ exRunUnopenable.startFinishError = 1 ∧
      exRunUnopenable.readErrors = 0 ∧ exRunUnopenable.exportErrors = 0 ∧
      exRunUnopenable.exportCounter = 0) :=
  ⟨(Option.some_get _).symm, rfl,
    (C4_summary_iff_failure_after_start (DltFormatHelper Unit exLib) exEnvAll exRunAll
      (Option.some_get _).symm).2 exEnvAllStarted [Call.open_ true, Call.prepare true] rfl,
    (Option.some_get _).symm, rfl,
    (C4_summary_iff_failure_after_start (DltFormatHelper Unit exLib) exEnvUnopenable
      exRunUnopenable (Option.some_get _).symm).1 exEnvUnopenableReported [Call.open_ false] rfl⟩

/-- C4 counterexample: when the sink cannot be opened the run stops with
the lifecycle counter at 1 and no summary is shown. -/
theorem C4_open_failure_counterexample :
    DltExporterImpl.exportMessages (DltFormatHelper Unit exLib) exEnvUnopenable
      = some exRunUnopenable ∧
    exRunUnopenable.startFinishError = 1 ∧ exRunUnopenable.summary = none ∧
    ¬ (exRunUnopenable.summary.isSome ↔
        (exRunUnopenable.startFinishError ≠ 0 ∨ exRunUnopenable.readErrors ≠ 0 ∨
          exRunUnopenable.exportErrors ≠ 0)) := by
  refine ⟨(Option.some_get _).symm, by decide, by decide, ?_⟩
  have h1 : exRunUnopenable.summary = none := by decide
  have h2 : exRunUnopenable.startFinishError = 1 := by decide
  rw [h1, h2]
  simp

/-- C5: if `open` fails, `prepare` is not called; if `open` or `prepare`
fails, the run stops there: the only helper calls made are `open` (and
`prepare`), the observer is as it was created and was never started, no
record was read, decoded or exported, the environment is the one the failed
call left, and `finish` was not called. -/
theorem C5_start_failure_stops_run {σ : Type} (helper : FormatHelper σ) (env : Env σ) :
    (∀ env1, helper.open_ { env with ctx := SelectionHelper.prepare env.ctx }
        = some (false, env1) →
      DltExporterImpl.exportMessages helper env =
        some { env := env1, msg := default, buf := [],
               progress := DltExporterImpl.newProgress env.ctx,
               readErrors := 0, exportErrors := 0, exportCounter := 0, startFinishError := 1,
               summary := none, trace := [Call.open_ false] }) ∧
    (∀ env0 env1, helper.open_ { env with ctx := SelectionHelper.prepare env.ctx }
        = some (true, env0) → helper.prepare env0 = some (false, env1) →
      DltExporterImpl.exportMessages helper env =
        some { env := env1, msg := default, buf := [],
               progress := DltExporterImpl.newProgress env.ctx,
               readErrors := 0, exportErrors := 0, exportCounter := 0, startFinishError := 1,
               summary := none, trace := [Call.open_ true, Call.prepare false] }) := by
  constructor
  · intro env1 ho
    exact exportMessages_not_started helper env env1 _ (by simp [DltExporterImpl.start, ho])
  · intro env0 env1 ho hp
    exact exportMessages_not_started helper env env1 _ (by simp [DltExporterImpl.start, ho, hp])

/-- C5 witness: a sink that cannot be opened, and a helper whose `prepare`
fails. -/
theorem C5_start_failure_stops_run_witness :
    (DltFormatHelper Unit exLib).open_
        { exEnvUnopenable with ctx := SelectionHelper.prepare exEnvUnopenable.ctx }
      = some (false, exEnvUnopenableReported) ∧
    DltExporterImpl.exportMessages (DltFormatHelper Unit exLib) exEnvUnopenable =
      some { env := exEnvUnopenableReported, msg := default, buf := [],
             progress := DltExporterImpl.newProgress exEnvUnopenable.ctx,
             readErrors := 0, exportErrors := 0, exportCounter := 0, startFinishError := 1,
             summary := none, trace := [Call.open_ false] } ∧
    exPrepareFails.open_ { exEnvAll with ctx := SelectionHelper.prepare exEnvAll.ctx }
      = some (true, exEnvAllStarted) ∧
    exPrepareFails.prepare exEnvAllStarted = some (false, exEnvAllStarted) ∧
    DltExporterImpl.exportMessages exPrepareFails exEnvAll =
      some { env := exEnvAllStarted, msg := default, buf := [],
             progress := DltExporterImpl.newProgress exEnvAll.ctx,
             readErrors := 0, exportErrors := 0, exportCounter := 0, startFinishError := 1,
             summary := none, trace := [Call.open_ true, Call.prepare false] } :=
  ⟨rfl, (C5_start_failure_stops_run (DltFormatHelper Unit exLib) exEnvUnopenable).1
      exEnvUnopenableReported rfl,
    rfl, rfl,
    (C5_start_failure_stops_run exPrepareFails exEnvAll).2 exEnvAllStarted exEnvAllStarted
      rfl rfl⟩

/-! ## QString::arg on the templates of the exporter -/

theorem digitValue_one : digitValue '1' = some 1 := by decide

theorem digitValue_two : digitValue '2' = some 2 := by decide

theorem digitValue_quote : digitValue '"' = none := by decide

theorem digitValue_stop : digitValue '.' = none := by decide

theorem digitValue_space : digitValue ' ' = none := by decide

theorem arg_single (a : QString) : QString.arg "%1".toList a = a := by
  simp [QString.arg, argPieces, ArgScan.step, ArgScan.plain, ArgScan.flush, digitValue_one,
    digitValue_two, digitValue_quote, digitValue_stop, digitValue_space, minEscape,
    ArgPiece.subst]

theorem arg_single_space (a : QString) : QString.arg "%1 ".toList a = a ++ [' '] := by
  simp [QString.arg, argPieces, ArgScan.step, ArgScan.plain, ArgScan.flush, digitValue_one,
    digitValue_two, digitValue_quote, digitValue_stop, digitValue_space, minEscape,
    ArgPiece.subst]

theorem arg_quoted (a : QString) : QString.arg "\"%1\"".toList a = '"' :: (a ++ ['"']) := by
  simp [QString.arg, argPieces, ArgScan.step, ArgScan.plain, ArgScan.flush, digitValue_one,
    digitValue_two, digitValue_quote, digitValue_stop, digitValue_space, minEscape,
    ArgPiece.subst]

theorem arg_first_of_two (a : QString) :
    QString.arg "%1.%2".toList a = a ++ ['.', '%', '2'] := by
  simp [QString.arg, argPieces, ArgScan.step, ArgScan.plain, ArgScan.flush, digitValue_one,
    digitValue_two, digitValue_quote, digitValue_stop, digitValue_space, minEscape,
    ArgPiece.subst]

/-- A text without `%` is scanned as literal characters. -/
theorem argPieces_text_append (t rest : QString) (ht : ∀ c ∈ t, c ≠ '%') :
    argPieces ArgScan.normal (t ++ rest)
      = t.map ArgPiece.text ++ argPieces ArgScan.normal rest := by
  induction t with
  | nil => rfl
  | cons c t ih =>
    have hc : c ≠ '%' := ht c (List.mem_cons_self c t)
    have ih' := ih (fun d hd => ht d (List.mem_cons_of_mem c hd))
    simp [argPieces, ArgScan.step, ArgScan.plain, hc, ih']

theorem digitChar_ne_percent (n : Nat) : Nat.digitChar (n % 10) ≠ '%' := by
  have h : ∀ k : Fin 10, Nat.digitChar k.val ≠ '%' := by decide
  exact h ⟨n % 10, Nat.mod_lt n (by decide)⟩

theorem toDigitsCore_ne_percent (fuel : Nat) :
    ∀ (n : Nat) (acc : List Char), (∀ c ∈ acc, c ≠ '%') →
      ∀ c ∈ Nat.toDigitsCore 10 fuel n acc, c ≠ '%' := by
  induction fuel with
  | zero => intro n acc hacc c hc; simpa [Nat.toDigitsCore] using hacc c (by simpa [Nat.toDigitsCore] using hc)
  | succ fuel ih =>
    intro n acc hacc c hc
    have hacc' : ∀ d ∈ Nat.digitChar (n % 10) :: acc, d ≠ '%' := by
      intro d hd
      rcases List.mem_cons.mp hd with rfl | hd
      · exact digitChar_ne_percent _
      · exact hacc d hd
    simp only [Nat.toDigitsCore] at hc
    split at hc
    · exact hacc' c hc
    · exact ih (n / 10) _ hacc' c hc

/-- The decimal text of a number has no `%`. -/
theorem ofNat_ne_percent (n : Nat) : ∀ c ∈ QString.ofNat n, c ≠ '%' :=
  toDigitsCore_ne_percent (n + 1) n [] (by simp)

/-- The decimal text of a number below `10 ^ e` has at most `e` digits. -/
theorem ofNat_length_le (n e : Nat) (he : 0 < e) (hn : n < 10 ^ e) :
    (QString.ofNat n).length ≤ e := by
  have := Nat.repr_length n e he hn
  simpa [Nat.repr, QString.ofNat] using this

/-- A full stop ends whatever marker the scan was in. -/
theorem argPieces_append_stop (s r : QString) : ∀ st : ArgScan,
    argPieces st (s ++ '.' :: r)
      = argPieces st s ++ ArgPiece.text '.' :: argPieces ArgScan.normal r := by
  induction s with
  | nil =>
    intro st
    cases st <;>
      simp [argPieces, ArgScan.step, ArgScan.plain, ArgScan.flush, digitValue_two,
        digitValue_stop]
  | cons c s ih =>
    intro st
    simp [argPieces, ih]

/-- The pieces of a template spell the template. -/
theorem argPieces_raw (s : QString) : ∀ st : ArgScan,
    ((argPieces st s).map ArgPiece.raw).flatten = st.pending ++ s := by
  induction s with
  | nil =>
    intro st
    cases st <;> simp [argPieces, ArgScan.flush, ArgScan.pending, ArgPiece.raw]
  | cons c s ih =>
    intro st
    simp only [argPieces, List.map_append, List.flatten_append, ih]
    have hpc : digitValue '%' = none := by decide
    cases st with
    | normal =>
      by_cases hc : c = '%'
      · subst hc; simp [ArgScan.step, ArgScan.plain, ArgScan.pending, ArgPiece.raw]
      · simp [ArgScan.step, ArgScan.plain, ArgScan.pending, ArgPiece.raw, hc]
    | percent =>
      by_cases hL : c = 'L'
      · simp [ArgScan.step, ArgScan.pending, hL]
      · by_cases hc : c = '%'
        · subst hc
          simp [ArgScan.step, ArgScan.plain, ArgScan.pending, ArgPiece.raw, hpc]
        · cases hd : digitValue c with
          | some d => simp [ArgScan.step, ArgScan.pending, hL, hd]
          | none =>
            simp [ArgScan.step, ArgScan.plain, ArgScan.pending, ArgPiece.raw, hL, hd, hc]
    | percentL =>
      by_cases hc : c = '%'
      · subst hc
        simp [ArgScan.step, ArgScan.plain, ArgScan.pending, ArgPiece.raw, hpc]
      · cases hd : digitValue c with
        | some d => simp [ArgScan.step, ArgScan.pending, hd]
        | none => simp [ArgScan.step, ArgScan.plain, ArgScan.pending, ArgPiece.raw, hd, hc]
    | digit d raw =>
      by_cases hc : c = '%'
      · subst hc
        simp [ArgScan.step, ArgScan.plain, ArgScan.pending, ArgPiece.raw, hpc]
      · cases hd : digitValue c with
        | some e => simp [ArgScan.step, ArgScan.pending, ArgPiece.raw, hd]
        | none => simp [ArgScan.step, ArgScan.plain, ArgScan.pending, ArgPiece.raw, hd, hc]

theorem minEscape_append_two (ps : List ArgPiece) (raw : List Char)
    (h : ∀ n r, ArgPiece.marker n r ∈ ps → 2 < n) :
    minEscape (ps ++ [ArgPiece.text '.', ArgPiece.marker 2 raw]) = some 2 := by
  induction ps with
  | nil => rfl
  | cons p ps ih =>
    have ih' := ih (fun n r hm => h n r (List.mem_cons_of_mem p hm))
    cases p with
    | text c => simpa [minEscape] using ih'
    | marker n r =>
      have hn : 2 < n := h n r (List.mem_cons_self _ ps)
      show (match minEscape (ps ++ [ArgPiece.text '.', ArgPiece.marker 2 raw]) with
        | none => some n
        | some m => some (min n m)) = some 2
      rw [ih']
      show some (min n 2) = some 2
      rw [Nat.min_eq_right (Nat.le_of_lt hn)]

theorem subst_two_of_high (a : QString) (ps : List ArgPiece)
    (h : ∀ n r, ArgPiece.marker n r ∈ ps → 2 < n) :
    (ps.map (ArgPiece.subst 2 a)).flatten = (ps.map ArgPiece.raw).flatten := by
  induction ps with
  | nil => rfl
  | cons p ps ih =>
    have ih' := ih (fun n r hm => h n r (List.mem_cons_of_mem p hm))
    cases p with
    | text c => simp [ArgPiece.subst, ArgPiece.raw, ih']
    | marker n r =>
      have hn : 2 < n := h n r (List.mem_cons_self _ ps)
      have hne : ¬ n = 2 := by omega
      simp [ArgPiece.subst, ArgPiece.raw, ih', hne]

/-- The second `arg` of a `"%1.%2"` chain replaces the marker `%2` of the
template and nothing else when the text put in by the first holds no marker
numbered 2 or lower. -/
theorem arg_second_of_two_noLow (t a : QString) (ht : NoLowMarker t) :
    QString.arg (t ++ ['.', '%', '2']) a = t ++ ['.'] ++ a := by
  have hp : argPieces ArgScan.normal (t ++ ['.', '%', '2'])
      = argPieces ArgScan.normal t ++ [ArgPiece.text '.', ArgPiece.marker 2 ['%', '2']] := by
    rw [argPieces_append_stop]
    simp [argPieces, ArgScan.step, ArgScan.plain, ArgScan.flush, digitValue_two,
        digitValue_stop]
  unfold QString.arg
  rw [hp, minEscape_append_two _ _ ht]
  simp only [List.map_append, List.flatten_append, subst_two_of_high a _ ht, argPieces_raw]
  simp [ArgPiece.subst, ArgScan.pending]

/-- A text without `%` holds no marker. -/
theorem noLowMarker_of_no_percent (t : QString) (ht : ∀ c ∈ t, c ≠ '%') : NoLowMarker t := by
  intro n raw hm
  have hp := argPieces_text_append t [] ht
  rw [List.append_nil] at hp
  rw [hp] at hm
  simp [argPieces, ArgScan.flush] at hm

theorem leftpad_ofNat_length (n e : Nat) (he : 0 < e) (hn : n < 10 ^ e) (fill : Char) :
    (List.leftpad e fill (QString.ofNat n)).length = e := by
  rw [List.leftpad_length]
  exact max_eq_left (ofNat_length_le n e he hn)

/-! ## CSV: escaping, the row and its fields -/

theorem escapeCSVValue_eq (s : QString) :
    CSVFormatHelper.escapeCSVValue s
      = '"' :: (QString.replaceChar s '"' ['"', '"'] ++ ['"']) := by
  unfold CSVFormatHelper.escapeCSVValue
  rw [arg_quoted]
  rfl

theorem replaceChar_cons (c : Char) (s : QString) :
    QString.replaceChar (c :: s) '"' ['"', '"']
      = (if c = '"' then ['"', '"'] else [c]) ++ QString.replaceChar s '"' ['"', '"'] := by
  simp [QString.replaceChar]

theorem undouble_cons_of_ne (c : Char) (rest : QString) (hc : ¬ c = '"') :
    CSV.undouble (c :: rest) = (CSV.undouble rest).map (fun u => c :: u) := by
  cases rest <;> simp [CSV.undouble, hc]

theorem undouble_replaceChar (s : QString) :
    CSV.undouble (QString.replaceChar s '"' ['"', '"']) = some s := by
  induction s with
  | nil => rfl
  | cons c s ih =>
    rw [replaceChar_cons]
    by_cases hc : c = '"'
    · subst hc
      simp [CSV.undouble, ih]
    · rw [if_neg hc, List.singleton_append, undouble_cons_of_ne c _ hc, ih]
      rfl

theorem unescape_escapeCSVValue (s : QString) :
    CSV.unescape (CSVFormatHelper.escapeCSVValue s) = some s := by
  rw [escapeCSVValue_eq]
  simp [CSV.unescape, undouble_replaceChar]

/-- Inside a field the reader consumes an escaped value up to its closing
quote and has read the value. -/
theorem splitFrom_inside (f : QString) : ∀ (cur : QString) (done : List QString)
    (tail : QString),
    CSV.splitFrom CSV.Scan.inside cur done (QString.replaceChar f '"' ['"', '"'] ++ '"' :: tail)
      = CSV.splitFrom CSV.Scan.quote (cur ++ f) done tail := by
  induction f with
  | nil =>
    intro cur done tail
    simp [QString.replaceChar, CSV.splitFrom]
  | cons c f ih =>
    intro cur done tail
    rw [replaceChar_cons]
    by_cases hc : c = '"'
    · subst hc
      simp [CSV.splitFrom, ih]
    · simp [CSV.splitFrom, hc, ih]

theorem splitFrom_field (f : QString) (done : List QString) (tail : QString) :
    CSV.splitFrom CSV.Scan.start [] done (CSVFormatHelper.escapeCSVValue f ++ tail)
      = CSV.splitFrom CSV.Scan.quote f done tail := by
  rw [escapeCSVValue_eq]
  simp [CSV.splitFrom, splitFrom_inside]

theorem splitFrom_joinRow (fs : List QString) : ∀ (f : QString) (done : List QString),
    CSV.splitFrom CSV.Scan.start [] done (CSV.joinRow (f :: fs)) = some (done ++ f :: fs) := by
  induction fs with
  | nil =>
    intro f done
    have hj : CSV.joinRow [f] = CSVFormatHelper.escapeCSVValue f ++ ['\n'] := by
      simp [CSV.joinRow, List.intercalate]
    rw [hj, splitFrom_field]
    simp [CSV.splitFrom]
  | cons g gs ih =>
    intro f done
    have hj : CSV.joinRow (f :: g :: gs)
        = CSVFormatHelper.escapeCSVValue f ++ ',' :: CSV.joinRow (g :: gs) := by
      simp [CSV.joinRow, List.intercalate]
    rw [hj, splitFrom_field]
    simp [CSV.splitFrom, ih]

theorem splitRow_joinRow (fields : List QString) (h : fields ≠ []) :
    CSV.splitRow (CSV.joinRow fields) = some fields := by
  cases fields with
  | nil => exact absurd rfl h
  | cons f fs => simpa [CSV.splitRow] using splitFrom_joinRow fs f []

/-- C6: `escapeCSVValue(s)` is a double quote, `s` with every double quote
doubled, and a double quote; un-escaping returns `s`, so `escapeCSVValue` is
injective; the row `writeCSVLine` builds is its thirteen values escaped,
joined by commas and ended by a line feed, and splitting the row of any
thirteen values by the escaping rule gives back those values (line breaks in
the values do no harm, so they are not excluded). -/
theorem C6_csv_escape_round_trip :
    (∀ s, CSVFormatHelper.escapeCSVValue s
      = '"' :: (QString.replaceChar s '"' ['"', '"'] ++ ['"'])) ∧
    (∀ s, CSV.unescape (CSVFormatHelper.escapeCSVValue s) = some s) ∧
    Function.Injective CSVFormatHelper.escapeCSVValue ∧
    (∀ index msg, CSVFormatHelper.lineText index msg
        = CSV.joinRow (CSVFormatHelper.fieldValues index msg) ∧
      (CSVFormatHelper.fieldValues index msg).length = 13) ∧
    (∀ fields : List QString, fields.length = 13 →
      CSV.splitRow (CSV.joinRow fields) = some fields) := by
  refine ⟨escapeCSVValue_eq, unescape_escapeCSVValue, ?_, ?_, ?_⟩
  · intro a b hab
    have := unescape_escapeCSVValue a
    rw [hab, unescape_escapeCSVValue] at this
    exact (Option.some.inj this).symm
  · intro index msg
    constructor
    · simp [CSVFormatHelper.lineText, CSV.joinRow, CSVFormatHelper.fieldValues, List.intercalate]
    · rfl
  · intro fields hlen
    apply splitRow_joinRow
    intro hnil
    rw [hnil] at hlen
    exact absurd hlen (by decide)

/-- C6 witness: thirteen values with quotes, commas and a line feed. -/
theorem C6_csv_escape_round_trip_witness :
    exFields.length = 13 ∧ CSV.splitRow (CSV.joinRow exFields) = some exFields :=
  ⟨rfl, C6_csv_escape_round_trip.2.2.2.2 exFields rfl⟩

/-- C7: the CSV timestamp field of raw ticks `T` is the decimal text of
`T / 10000`, a dot, and the decimal text of `T % 10000` padded on the left
with `0` to exactly 4 digits. For a time string `t` and a microsecond value
`U` up to 999999 the CSV time field is `t`, a dot, and the decimal text of `U`
padded on the left with `0` to exactly 6 digits. These two are the second and
third value of the row. -/
theorem C7_timestamp_and_time_fields (T U : Nat) (t : QString) (ht : IsTimeString t)
    (hU : U ≤ 999999) :
    CSVFormatHelper.timestampField T
      = QString.ofNat (T / 10000) ++ ['.'] ++ List.leftpad 4 '0' (QString.ofNat (T % 10000)) ∧
    (List.leftpad 4 '0' (QString.ofNat (T % 10000))).length = 4 ∧
    CSVFormatHelper.timeField t U = t ++ ['.'] ++ List.leftpad 6 '0' (QString.ofNat U) ∧
    (List.leftpad 6 '0' (QString.ofNat U)).length = 6 ∧
    (∀ (index : Int) (msg : QDltMsg),
      (CSVFormatHelper.fieldValues index msg)[1]?
        = some (CSVFormatHelper.timeField msg.timeString msg.microseconds) ∧
      (CSVFormatHelper.fieldValues index msg)[2]?
        = some (CSVFormatHelper.timestampField msg.timestamp)) := by
  refine ⟨?_, ?_, ?_, ?_, ?_⟩
  · unfold CSVFormatHelper.timestampField QString.argNat
    rw [arg_first_of_two]
    have hpad : List.leftpad 0 ' ' (QString.ofNat (T / 10000)) = QString.ofNat (T / 10000) := by
      simp [List.leftpad]
    rw [hpad]
    exact arg_second_of_two_noLow _ _ (noLowMarker_of_no_percent _ (ofNat_ne_percent _))
  · exact leftpad_ofNat_length _ 4 (by decide) (Nat.mod_lt T (by decide)) '0'
  · unfold CSVFormatHelper.timeField QString.argNat
    rw [arg_first_of_two]
    exact arg_second_of_two_noLow _ _ (noLowMarker_of_no_percent t ht)
  · exact leftpad_ofNat_length U 6 (by decide) (by omega) '0'
  · intro index msg
    exact ⟨rfl, rfl⟩

/-- C7 witness: 1234567 ticks, and a rendered time with 42 microseconds. -/
theorem C7_timestamp_and_time_fields_witness :
    IsTimeString "2024/01/01 10:00:00".toList ∧ 42 ≤ 999999 ∧
    CSVFormatHelper.timestampField 1234567 = "123.4567".toList ∧
    (List.leftpad 4 '0' (QString.ofNat (1234567 % 10000))).length = 4 ∧
    CSVFormatHelper.timeField "2024/01/01 10:00:00".toList 42
      = "2024/01/01 10:00:00.000042".toList ∧
    (List.leftpad 6 '0' (QString.ofNat 42)).length = 6 := by
  have ht : IsTimeString "2024/01/01 10:00:00".toList := by
    unfold IsTimeString
    decide
  have h := C7_timestamp_and_time_fields 1234567 42 "2024/01/01 10:00:00".toList ht (by decide)
  refine ⟨ht, by decide, ?_, h.2.1, ?_, h.2.2.2.1⟩
  · rw [h.1]; decide
  · rw [h.2.2.1]; decide

/-- Why a time string is asked to hold no `%`: the second `arg` of the chain
`QString("%1.%2").arg(t).arg(U, 6, 10, '0')` scans the whole text the first
left, so on a text that is no rendered time, such as `%1`, it would replace a
marker inside it. -/
theorem timeField_scans_first_argument :
    CSVFormatHelper.timeField "%1".toList 5 = "000005.%2".toList := by
  decide

/-! ## The plain-text variants -/

/-- `simplified` collapses the separators of every script: two ideographic
spaces and a line separator between and after two letters leave one space. -/
theorem simplified_unicode_separators :
    QString.simplified ['a', '\u3000', '\u3000', 'b', '\u2028'] = "a b".toList := by
  decide

/-- Inside `[0, total)` the translation is defined. -/
theorem selection_isSome_of_lt (ctx : ExportContext) (num : Int) (h0 : 0 ≤ num)
    (h1 : num < SelectionHelper.size ctx) : ∃ index, SelectionHelper.selection ctx num = some index := by
  unfold SelectionHelper.selection
  by_cases ha : ctx.exportSelection = SelectionAll
  · exact ⟨_, by rw [if_pos ha]⟩
  · by_cases hf : ctx.exportSelection = SelectionFiltered
    · exact ⟨_, by rw [if_neg ha, if_pos hf]⟩
    · by_cases hs : ctx.exportSelection = SelectionSelected
      · have hsz : SelectionHelper.size ctx = (ctx.selectedRows.length : Int) := by
          unfold SelectionHelper.size
          rw [if_neg ha, if_neg hf, if_pos hs]
        rw [hsz] at h1
        obtain ⟨row, _, hq⟩ := qlistAt_of_lt ctx.selectedRows num h0 h1
        exact ⟨ctx.from_.getMsgFilterPos row, by rw [if_neg ha, if_neg hf, if_pos hs, hq]; rfl⟩
      · exact ⟨_, by rw [if_neg ha, if_neg hf, if_neg hs]⟩

/-- The line of a non-negative index. -/
theorem plainText_text (index : Int) (msg : QDltMsg) :
    PlainTextFormatHelper.text index msg
      = QString.ofInt index ++ [' '] ++ msg.stringHeader ++ [' '] ++
        QString.simplified msg.stringPayload ++ ['\n'] := by
  unfold PlainTextFormatHelper.text QString.argInt
  rw [arg_single_space]
  rfl

/-- An iteration whose read succeeds and whose export fails counts one
export failure, and the loop goes on with the next position. -/
theorem exportLoop_export_failed {σ : Type} (helper : FormatHelper σ) (size : Int) (fuel : Nat)
    (num : Int) (r : Run σ) (progress : ProgressHandler) (msg msg1 msg2 : QDltMsg)
    (buf buf1 buf2 : QByteArray) (env env1 env2 : Env σ) (hlt : num < size)
    (hp : r.progress.update num = some progress)
    (hr : helper.readMsg num r.msg r.buf r.env = some (true, msg, buf, env))
    (hd : helper.decodeMsg msg buf env = some (msg1, buf1, env1))
    (he : helper.exportMsg num msg1 buf1 env1 = some (false, msg2, buf2, env2)) :
    DltExporterImpl.exportLoop helper size (fuel + 1) num r =
      DltExporterImpl.exportLoop helper size fuel (num + 1)
        { r with env := env2, msg := msg2, buf := buf2, progress := progress,
                 exportErrors := r.exportErrors + 1,
                 trace := r.trace ++ [Call.progressUpdate num, Call.readMsg num true,
                   Call.decodeMsg num, Call.exportMsg num false] } := by
  simp only [DltExporterImpl.exportLoop, if_pos hlt, DltExporterImpl.loopBody, hp, hr, hd, he]

/-- C8: for the plain-text variants (`writeMessage` is the variant's own) and
a position `num` whose record was read: inside `[0, total)` the translated
index exists; if it is negative, `exportMsg` writes nothing and returns false,
and the driver counts one export failure and goes on with `num + 1`;
otherwise `exportMsg` hands `writeMessage` the line made of the decimal index,
a space, the header text, a space, the whitespace-collapsed payload and a
line feed, and returns true. -/
theorem C8_plain_text_export {σ : Type} (writeMessage : QString → Env σ → Option (Env σ))
    (num : Int) (msg : QDltMsg) (buf : QByteArray) (env : Env σ) :
    (0 ≤ num → num < SelectionHelper.size env.ctx →
      ∃ index, SelectionHelper.selection env.ctx num = some index) ∧
    (∀ index, SelectionHelper.selection env.ctx num = some index → index < 0 →
      PlainTextFormatHelper.exportMsg writeMessage num msg buf env = some (false, msg, buf, env) ∧
      ∀ (helper : FormatHelper σ) (size : Int) (fuel : Nat) (r : Run σ)
        (progress : ProgressHandler) (msg0 : QDltMsg) (buf0 : QByteArray) (env0 : Env σ),
        helper.exportMsg = PlainTextFormatHelper.exportMsg writeMessage →
        num < size → r.progress.update num = some progress →
        helper.readMsg num r.msg r.buf r.env = some (true, msg0, buf0, env0) →
        helper.decodeMsg msg0 buf0 env0 = some (msg, buf, env) →
        DltExporterImpl.exportLoop helper size (fuel + 1) num r =
          DltExporterImpl.exportLoop helper size fuel (num + 1)
            { r with env := env, msg := msg, buf := buf, progress := progress,
                     exportErrors := r.exportErrors + 1,
                     trace := r.trace ++ [Call.progressUpdate num, Call.readMsg num true,
                       Call.decodeMsg num, Call.exportMsg num false] }) ∧
    (∀ index, SelectionHelper.selection env.ctx num = some index → 0 ≤ index →
      PlainTextFormatHelper.exportMsg writeMessage num msg buf env =
        (writeMessage (QString.ofInt index ++ [' '] ++ msg.stringHeader ++ [' '] ++
          QString.simplified msg.stringPayload ++ ['\n']) env).map
          (fun env1 => (true, msg, buf, env1))) := by
  refine ⟨selection_isSome_of_lt env.ctx num, ?_, ?_⟩
  · intro index hsel hneg
    have hexp : PlainTextFormatHelper.exportMsg writeMessage num msg buf env
        = some (false, msg, buf, env) := by
      simp [PlainTextFormatHelper.exportMsg, hsel, hneg]
    refine ⟨hexp, ?_⟩
    intro helper size fuel r progress msg0 buf0 env0 hh hlt hp hr hd
    exact exportLoop_export_failed helper size fuel num r progress msg0 msg msg buf0 buf buf
      env0 env env hlt hp hr hd (by rw [hh]; exact hexp)
  · intro index hsel hpos
    have hnot : ¬ index < 0 := by omega
    simp only [PlainTextFormatHelper.exportMsg, hsel, hnot, if_false, plainText_text]
    cases writeMessage (QString.ofInt index ++ [' '] ++ msg.stringHeader ++ [' '] ++
      QString.simplified msg.stringPayload ++ ['\n']) env <;> rfl

/-- C8 witness: scope Filtered over `exStore`. Position 1 is record 2 and
its line is `2 H a b`; position 5 has no record and its export fails. -/
theorem C8_plain_text_export_witness :
    SelectionHelper.selection exEnvFiltered.ctx 1 = some 2 ∧
    PlainTextFormatHelper.exportMsg ASCIIFormatHelper.writeMessage 1 exMsg [] exEnvFiltered =
      (ASCIIFormatHelper.writeMessage "2 H a b\n".toList exEnvFiltered).map
        (fun env1 => (true, exMsg, [], env1)) ∧
    SelectionHelper.selection exEnvFiltered.ctx 5 = some (-1) ∧
    PlainTextFormatHelper.exportMsg ASCIIFormatHelper.writeMessage 5 exMsg [] exEnvFiltered
      = some (false, exMsg, [], exEnvFiltered) :=
  ⟨rfl,
   (C8_plain_text_export ASCIIFormatHelper.writeMessage 1 exMsg [] exEnvFiltered).2.2 2 rfl
     (by decide),
   rfl,
   ((C8_plain_text_export ASCIIFormatHelper.writeMessage 5 exMsg [] exEnvFiltered).2.1 (-1) rfl
     (by decide)).1⟩

/-! ## The raw re-encode variant -/

/-- No `update` assigns `_last`: it keeps the 0 that `start` gave it. -/
theorem update_last (h h' : DialogProgressHandler) (count : Int)
    (hu : h.update count = some h') : h'._last = h._last := by
  unfold DialogProgressHandler.update at hu
  cases hd : h._dialog with
  | none =>
    simp only [hd] at hu
    obtain rfl := Option.some.inj hu
    rfl
  | some d =>
    simp only [hd] at hu
    by_cases hz : h._size = 0
    · simp [hz] at hu
    · simp only [hz, if_false] at hu
      by_cases hgt : percent count h._size > h._last
      · simp only [hgt, if_true] at hu
        obtain rfl := Option.some.inj hu
        rfl
      · simp only [hgt, if_false] at hu
        obtain rfl := Option.some.inj hu
        rfl

/-- C10, the code at the failing input: after `start(256)` the updates 0, 1,
2, 3 (the first four of a run over 256 records) pass the value 1 to the
dialog twice, for `update(2)` and again for `update(3)`, and `_last` is still
0: the values rendered are not strictly increasing. -/
theorem C10_same_percentage_rendered_twice :
    percent 2 256 = 1 ∧ percent 3 256 = 1 ∧
    ((DialogProgressHandler.new.start 256).updates [0, 1, 2, 3]).map
        (fun h => (h._dialog.map QProgressDialog.values, h._last))
      = some (some [1, 1], 0) := by
  decide

/-! ## The CSV variant: the result of `exportMsg` and the index field -/

/-- The only `return` statement `CSVFormatHelper::exportMsg` has returns
false. -/
theorem csv_exportMsg_never_true {σ : Type} (num : Int) (msg : QDltMsg) (buf : QByteArray)
    (env : Env σ) :
    (CSVFormatHelper.exportMsg num msg buf env).map Prod.fst = none ∨
    (CSVFormatHelper.exportMsg num msg buf env).map Prod.fst = some false := by
  unfold CSVFormatHelper.exportMsg CSVFormatHelper.exportMsgBody
  cases SelectionHelper.selection env.ctx num with
  | none => exact Or.inl rfl
  | some index =>
    by_cases hneg : index < 0
    · simp [hneg]
    · simp only [hneg, if_false]
      cases CSVFormatHelper.writeCSVLine num msg env <;> exact Or.inl rfl

set_option maxRecDepth 100000 in
/-- The CSV export of `exStore` with scope All and a parser that accepts
every record has no defined result. -/
theorem exCsvRun_undefined :
    (DltExporterImpl.exportMessages (CSVFormatHelper Unit exLibAll exNames) exEnvAll).isSome
      = false := by
  decide

/-- C11, the code at the failing input: at position 0 of the CSV export of
`exStore` with scope All the translated index is 0, `exportMsg` writes the row
and reaches the end of the function without a `return`, so the call has no
value for the driver to test and the run has no defined tallies; no call of
`exportMsg` ever returns true. -/
theorem C11_csv_export_leaves_without_return :
    (∀ (num : Int) (msg : QDltMsg) (buf : QByteArray) (env : Env Unit),
      (CSVFormatHelper.exportMsg num msg buf env).map Prod.fst = none ∨
      (CSVFormatHelper.exportMsg num msg buf env).map Prod.fst = some false) ∧
    SelectionHelper.selection exEnvAllStarted.ctx 0 = some 0 ∧
    (CSVFormatHelper.exportMsgBody 0 exMsg exEnvAllStarted).map
        (fun p => (p.1, p.2.ctx.to_.map QFile.content))
      = some (none, some (QByteArray.constData
          (QString.toLatin1 (CSVFormatHelper.lineText 0 exMsg)))) ∧
    (CSVFormatHelper.exportMsg 0 exMsg [] exEnvAllStarted).isSome = false ∧
    (DltExporterImpl.exportMessages (CSVFormatHelper Unit exLibAll exNames) exEnvAll).isSome
      = false :=
  ⟨fun num msg buf env => csv_exportMsg_never_true num msg buf env, rfl, rfl, rfl,
    exCsvRun_undefined⟩

/-- The row `writeCSVLine` builds is its thirteen values escaped and joined. -/
theorem lineText_eq_joinRow (index : Int) (msg : QDltMsg) :
    CSVFormatHelper.lineText index msg
      = CSV.joinRow (CSVFormatHelper.fieldValues index msg) := by
  simp [CSVFormatHelper.lineText, CSV.joinRow, CSVFormatHelper.fieldValues, List.intercalate]

/-- C12, the code at the failing input: the first field of the row
`writeCSVLine` builds is the decimal text of the number it is called with,
and `exportMsg` calls it with the sequential position. At position 1 of a CSV
export of `exStore` with scope Filtered the translated index is 2 (the number
the plain-text line shows), and the row written starts with the field `1`. -/
theorem C12_csv_index_field_is_position :
    (∀ (num : Int) (msg : QDltMsg),
      CSV.splitRow (CSVFormatHelper.lineText num msg)
        = some (CSVFormatHelper.fieldValues num msg) ∧
      (CSVFormatHelper.fieldValues num msg)[0]? = some (QString.ofInt num)) ∧
    SelectionHelper.selection exEnvFiltered.ctx 1 = some 2 ∧
    (CSVFormatHelper.exportMsgBody 1 exMsg exEnvFiltered).map
        (fun p => p.2.ctx.to_.map QFile.content)
      = some (some (QByteArray.constData
          (QString.toLatin1 (CSVFormatHelper.lineText 1 exMsg)))) ∧
    (CSV.splitRow (CSVFormatHelper.lineText 1 exMsg)).map (fun fields => fields[0]?)
      = some (some "1".toList) ∧
    QString.ofInt 2 = "2".toList ∧
    PlainTextFormatHelper.text 2 exMsg = "2 H a b\n".toList := by
  refine ⟨?_, rfl, rfl, by decide, by decide, by decide⟩
  intro num msg
  constructor
  · rw [lineText_eq_joinRow]
    exact splitRow_joinRow _ (by simp [CSVFormatHelper.fieldValues])
  · show some (QString.arg "%1".toList (QString.ofInt num)) = some (QString.ofInt num)
    rw [arg_single]

end DltExporter
